import Mathlib

/-!
# NetworkAddonsConfig operand of the hyperconverged cluster operator

A shallow embedding of `pkg/controller/operands/networkAddons.go`.

* Go maps `map[string]string` are `GoMap`: `none` is the nil map, `some m` a
  non-nil map with finitely many entries, compared extensionally, which is what
  `reflect.DeepEqual` does on maps (a nil map differs from an empty one).
* Go slices are `GoSlice`: `none` is the nil slice.
* Pointers to optional blocks are `Option`; the pointers the functions
  dereference unconditionally (`hc`, `req`, `req.Instance`, `found`,
  `networkAddons`) are taken to be non-nil.
* Methods that mutate their arguments return the new values.
* The update call is embedded twice: with a `Client` that leaves the object
  as passed, and with a `WriteBackClient` that may write the server's reply
  into it; the first is the second at a client without write-back
  (`updateCrWriteBack_toWriteBack`).
* `reflect.DeepEqual` on the acyclic, function-free values used here is
  structural equality, and the generated `DeepCopyInto` methods produce a
  structurally equal value.
-/

namespace Operands

/-! ## Go maps and slices -/

/-- The entries of a non-nil `map[string]string`. -/
abbrev StrMap := Finmap (fun _ : String => String)

/-- A Go `map[string]string`; `none` is the nil map. -/
abbrev GoMap := Option StrMap

/-- Go's two-valued index expression `v, ok := m[k]`; a nil map has no keys
and a missing key gives the zero value `""`. -/
def GoMap.index (m : GoMap) (k : String) : String × Bool :=
  match m with
  | none => ("", false)
  | some f =>
    match f.lookup k with
    | some v => (v, true)
    | none => ("", false)

/-- Go's `len(m)`; the nil map has length 0. -/
def GoMap.len (m : GoMap) : Nat :=
  match m with
  | none => 0
  | some f => Multiset.card f.entries

/-- The value stored under `k`, if any. -/
def GoMap.lookup (m : GoMap) (k : String) : Option String :=
  match m with
  | none => none
  | some f => f.lookup k

/-- One pass of `for k, v := range src { dst[k] = v }` over the entries in
the order given by the list. -/
def assignAll (dst : StrMap) (es : List (Sigma (fun _ : String => String))) : StrMap :=
  es.foldl (fun m e => m.insert e.1 e.2) dst

/-- The loop `for k, v := range src { dst[k] = v }`. Go leaves the iteration
order unspecified; the result does not depend on it, which is the side
condition discharged here. -/
def StrMap.rangeAssign (src dst : StrMap) : StrMap :=
  Finmap.liftOn src (fun al => assignAll dst al.entries) (by
    have key : ∀ (es : List (Sigma (fun _ : String => String))) (d : StrMap) (k : String),
        es.NodupKeys →
        (assignAll d es).lookup k = (es.dlookup k).orElse (fun _ => d.lookup k) := by
      intro es
      induction es with
      | nil => intro d k _; simp [assignAll]
      | cons e es ih =>
        intro d k hnd
        obtain ⟨a, b⟩ := e
        have hnd' := List.nodupKeys_cons.mp hnd
        have h := ih (d.insert a b) k hnd'.2
        simp only [assignAll, List.foldl_cons] at h ⊢
        rw [h]
        by_cases hk : a = k
        · subst hk
          have hn : es.dlookup a = none := by
            rw [List.dlookup_eq_none]; exact hnd'.1
          simp [hn, Finmap.lookup_insert]
        · have hk' : k ≠ a := fun h => hk h.symm
          simp [List.dlookup_cons_ne es ⟨a, b⟩ hk', Finmap.lookup_insert_of_ne _ hk']
    intro a b hp
    apply Finmap.ext_lookup
    intro k
    rw [key _ _ _ a.nodupKeys, key _ _ _ b.nodupKeys,
      List.perm_dlookup k a.nodupKeys b.nodupKeys hp])

/-- The loop `for k, v := range src { dst[k] = v }` for a source that may be
nil: a nil map has nothing to visit. -/
def GoMap.rangeAssign (src : GoMap) (dst : StrMap) : StrMap :=
  match src with
  | none => dst
  | some m => StrMap.rangeAssign m dst

/-- A Go slice; `none` is the nil slice. -/
abbrev GoSlice (α : Type) := Option (List α)

/-- The elements a `range` loop visits, in order. -/
def GoSlice.elems {α : Type} (s : GoSlice α) : List α :=
  match s with
  | none => []
  | some l => l

/-- Go's `len(s)`. -/
def GoSlice.len {α : Type} (s : GoSlice α) : Nat := (GoSlice.elems s).length

/-- Go's `append(s, x)`: the result is never nil. -/
def GoSlice.append {α : Type} (s : GoSlice α) (x : α) : GoSlice α :=
  some (GoSlice.elems s ++ [x])

/-- The function `reflect.DeepEqual` on the values of this file. -/
def DeepEqual {α : Type} [DecidableEq α] (a b : α) : Bool := decide (a = b)

/-! ## API types

The types of `k8s.io/api`, `apimachinery`, the network addons operator and
the lifecycle SDK that the file uses, with the fields it reads or writes and
their neighbours. Every field has its Go zero value as default, so `{}` is
the zero struct. -/

/-- The type `corev1.Toleration`. -/
structure Toleration where
  Key : String := ""
  Operator : String := ""
  Value : String := ""
  Effect : String := ""
  TolerationSeconds : Option Int := none
deriving DecidableEq

/-- The type `corev1.Affinity`: three optional rule groups. This package
never looks inside a rule group; its terms are carried as a list. -/
structure Affinity where
  NodeAffinity : Option (List String) := none
  PodAffinity : Option (List String) := none
  PodAntiAffinity : Option (List String) := none
deriving DecidableEq

/-- The type `sdkapi.NodePlacement`, the parent's placement preference. -/
structure NodePlacement where
  NodeSelector : GoMap := none
  Affinity : Option Affinity := none
  Tolerations : GoSlice Toleration := none
deriving DecidableEq

/-- The type `networkaddonsshared.Placement`. -/
structure Placement where
  NodeSelector : GoMap := none
  Affinity : Affinity := {}
  Tolerations : GoSlice Toleration := none
deriving DecidableEq

/-- The type `networkaddonsshared.PlacementConfiguration`. -/
structure PlacementConfiguration where
  Infra : Option Placement := none
  Workloads : Option Placement := none
deriving DecidableEq

/-- The empty struct `networkaddonsshared.Multus`. -/
structure Multus where
deriving DecidableEq

/-- The empty struct `networkaddonsshared.LinuxBridge`. -/
structure LinuxBridge where
deriving DecidableEq

/-- The empty struct `networkaddonsshared.Ovs`. -/
structure Ovs where
deriving DecidableEq

/-- The empty struct `networkaddonsshared.NMState`. -/
structure NMState where
deriving DecidableEq

/-- The empty struct `networkaddonsshared.MacvtapCni`. -/
structure MacvtapCni where
deriving DecidableEq

/-- The type `networkaddonsshared.KubeMacPool`. -/
structure KubeMacPool where
  RangeStart : String := ""
  RangeEnd : String := ""
deriving DecidableEq

/-- The type `networkaddonsshared.SelfSignConfiguration`. -/
structure SelfSignConfiguration where
  CARotateInterval : String := ""
  CAOverlapInterval : String := ""
  CertRotateInterval : String := ""
  CertOverlapInterval : String := ""
deriving DecidableEq

/-- The type `networkaddonsshared.NetworkAddonsConfigSpec`. -/
structure NetworkAddonsConfigSpec where
  Multus : Option Multus := none
  LinuxBridge : Option LinuxBridge := none
  Ovs : Option Ovs := none
  KubeMacPool : Option KubeMacPool := none
  ImagePullPolicy : String := ""
  NMState : Option NMState := none
  MacvtapCni : Option MacvtapCni := none
  SelfSignConfiguration : Option SelfSignConfiguration := none
  PlacementConfiguration : Option PlacementConfiguration := none
deriving DecidableEq

/-- The type `conditionsv1.Condition`, without its two timestamps. -/
structure Condition where
  CondType : String := ""
  Status : String := ""
  Reason : String := ""
  Message : String := ""
deriving DecidableEq

/-- The type `networkaddonsshared.NetworkAddonsConfigStatus`. -/
structure NetworkAddonsConfigStatus where
  OperatorVersion : String := ""
  ObservedVersion : String := ""
  TargetVersion : String := ""
  Conditions : GoSlice Condition := none
deriving DecidableEq

/-- The type `metav1.OwnerReference`. -/
structure OwnerReference where
  APIVersion : String := ""
  Kind : String := ""
  Name : String := ""
  UID : String := ""
deriving DecidableEq

/-- The type `metav1.ObjectMeta`. -/
structure ObjectMeta where
  Name : String := ""
  Namespace : String := ""
  UID : String := ""
  ResourceVersion : String := ""
  Generation : Int := 0
  Labels : GoMap := none
  Annotations : GoMap := none
  OwnerReferences : GoSlice OwnerReference := none
  Finalizers : GoSlice String := none
deriving DecidableEq

/-- The type `networkaddonsv1.NetworkAddonsConfig`, the dependent resource.
The embedded `ObjectMeta` is a field. -/
structure NetworkAddonsConfig where
  ObjectMeta : ObjectMeta := {}
  Spec : NetworkAddonsConfigSpec := {}
  Status : NetworkAddonsConfigStatus := {}
deriving DecidableEq

/-- The type `hcov1beta1.HyperConvergedConfig`. -/
structure HyperConvergedConfig where
  NodePlacement : Option NodePlacement := none
deriving DecidableEq

/-- The fields of `hcov1beta1.HyperConvergedSpec` read here. -/
structure HyperConvergedSpec where
  Infra : HyperConvergedConfig := {}
  Workloads : HyperConvergedConfig := {}
deriving DecidableEq

/-- The type `hcov1beta1.HyperConverged`, the parent resource. -/
structure HyperConverged where
  ObjectMeta : ObjectMeta := {}
  Spec : HyperConvergedSpec := {}
deriving DecidableEq

/-- A `context.Context`, identified by a number. -/
abbrev Context := Nat

/-- The fields of `common.HcoRequest` used here. `Logger` holds the messages
passed to `req.Logger.Info` so far, oldest first. -/
structure HcoRequest where
  Ctx : Context := 0
  Instance : HyperConverged := {}
  Logger : List String := []
  Dirty : Bool := false
  HCOTriggered : Bool := false
  UpgradeMode : Bool := false
deriving DecidableEq

/-- The call `req.Logger.Info(msg)`. -/
def HcoRequest.logInfo (req : HcoRequest) (msg : String) : HcoRequest :=
  { req with Logger := req.Logger ++ [msg] }

/-- A `runtime.Object` as seen by the type assertion
`.(*networkaddonsv1.NetworkAddonsConfig)`: either an object of that type, or
an object of another kind. -/
inductive RuntimeObject where
  | cna (o : NetworkAddonsConfig)
  | other (kind : String)
deriving DecidableEq

/-- A `client.Client` that leaves the object passed to `Update` as it is and
answers with an error or with nil (`none`). The statements about the spec,
the labels, the returned triple and the calls are made with it; a client that
writes the server's reply into the object is a `WriteBackClient`. -/
structure Client where
  Update : Context → NetworkAddonsConfig → Option String

/-- What this file needs from the rest of the repository and from libraries
and does not have the source of. -/
structure Env where
  /-- The constant `networkaddonsnames.OPERATOR_CONFIG`. -/
  OPERATOR_CONFIG : String
  /-- The constant `hcoutil.AppComponentNetwork`. -/
  AppComponentNetwork : String
  /-- The constant `hcoutil.UndefinedNamespace`. -/
  UndefinedNamespace : String
  /-- The constant `common.JSONPatchCNAOAnnotationName`. -/
  JSONPatchCNAOAnnotationName : String
  /-- The helper `getLabels(hc, component)` of the package. -/
  getLabels : HyperConverged → String → GoMap
  /-- The helper `getNamespace(defaultNamespace, opts)` of the package. -/
  getNamespace : String → List String → String
  /-- The JSON-patch library: decode the patch text and apply it to the
  object, giving the patched object or an error. -/
  jsonPatch : String → NetworkAddonsConfig → Except String NetworkAddonsConfig

/-! ## Generated deep copies

`DeepCopyInto` writes a deep copy of its receiver over `out`. -/

/-- The method `(*corev1.Affinity).DeepCopyInto`. -/
def Affinity.DeepCopyInto (src _out : Affinity) : Affinity := src

/-- The method `(*corev1.Toleration).DeepCopyInto`. -/
def Toleration.DeepCopyInto (src _out : Toleration) : Toleration := src

/-- The method `(*NetworkAddonsConfigSpec).DeepCopyInto`. -/
def NetworkAddonsConfigSpec.DeepCopyInto (src _out : NetworkAddonsConfigSpec) :
    NetworkAddonsConfigSpec := src

/-! ## Parts of the repository outside this file -/

/-- Modelled from the spec: `util.DeepCopyLabels(src, tgt)` is defined in
`pkg/util`, which is not among the sources. Section 4.4: "replace live labels
with desired labels". The target keeps all its other metadata. -/
def DeepCopyLabels (src tgt : ObjectMeta) : ObjectMeta :=
  { tgt with Labels := src.Labels }

/-- Modelled from the spec: `applyPatchToSpec(hc, annotationName, obj)` is
defined elsewhere in the package, not among the sources. Section 4.1: "Apply
any registered raw patch overlay (an external JSON-patch mechanism keyed by a
well-known annotation name) as the final step, after all structural fields
are set; a malformed patch is a hard error that aborts spec construction."
Without the annotation no overlay is registered and the object is left as it
is. -/
def applyPatchToSpec (env : Env) (hc : HyperConverged) (annotationName : String)
    (obj : NetworkAddonsConfig) : Except String NetworkAddonsConfig :=
  match GoMap.index hc.ObjectMeta.Annotations annotationName with
  | (patch, true) => env.jsonPatch patch obj
  | (_, false) => Except.ok obj

/-! ## The translators -/

/-- Source lines 213-219. -/
def hcoAnnotation2CnaoSpec (hcoAnnotations : GoMap) : Option Ovs :=
  let (val, «exists») := GoMap.index hcoAnnotations "deployOVS"
  if «exists» && val == "true" then
    some {}
  else
    none

/-- Source lines 181-211. The pair threaded through is (`empty`,
`cnaoPlacement`). -/
def hcoConfig2CnaoPlacement (hcoConf : Option NodePlacement) : Option Placement :=
  match hcoConf with
  | none => none
  | some hcoConf =>
    let empty := true
    let cnaoPlacement : Placement := {}
    let (empty, cnaoPlacement) :=
      match hcoConf.Affinity with
      | some aff =>
        (false, { cnaoPlacement with Affinity := aff.DeepCopyInto cnaoPlacement.Affinity })
      | none => (empty, cnaoPlacement)
    let (empty, cnaoPlacement) :=
      (GoSlice.elems hcoConf.Tolerations).foldl
        (fun (st : Bool × Placement) hcoTol =>
          let cnaoTol : Toleration := {}
          let cnaoTol := hcoTol.DeepCopyInto cnaoTol
          (false, { st.2 with Tolerations := GoSlice.append st.2.Tolerations cnaoTol }))
        (empty, cnaoPlacement)
    let (empty, cnaoPlacement) :=
      if GoMap.len hcoConf.NodeSelector > 0 then
        (false, { cnaoPlacement with
          NodeSelector := some (GoMap.rangeAssign hcoConf.NodeSelector ∅) })
      else (empty, cnaoPlacement)
    if empty then none else some cnaoPlacement

/-- Source lines 171-179. -/
def NewNetworkAddonsWithNameOnly (env : Env) (hc : HyperConverged) (opts : List String) :
    NetworkAddonsConfig :=
  { ObjectMeta :=
      { Name := env.OPERATOR_CONFIG
        Labels := env.getLabels hc env.AppComponentNetwork
        Namespace := env.getNamespace env.UndefinedNamespace opts } }

/-- Source lines 140-169. -/
def NewNetworkAddons (env : Env) (hc : HyperConverged) (opts : List String) :
    Except String NetworkAddonsConfig :=
  let cnaoSpec : NetworkAddonsConfigSpec :=
    { Multus := some {}
      LinuxBridge := some {}
      NMState := some {}
      KubeMacPool := some {} }
  let cnaoSpec := { cnaoSpec with Ovs := hcoAnnotation2CnaoSpec hc.ObjectMeta.Annotations }
  let cnaoInfra := hcoConfig2CnaoPlacement hc.Spec.Infra.NodePlacement
  let cnaoWorkloads := hcoConfig2CnaoPlacement hc.Spec.Workloads.NodePlacement
  let cnaoSpec :=
    if cnaoInfra ≠ none ∨ cnaoWorkloads ≠ none then
      { cnaoSpec with
        PlacementConfiguration := some { Infra := cnaoInfra, Workloads := cnaoWorkloads } }
    else cnaoSpec
  let cna := NewNetworkAddonsWithNameOnly env hc opts
  let cna := { cna with Spec := cnaoSpec }
  match applyPatchToSpec env hc env.JSONPatchCNAOAnnotationName cna with
  | Except.error err => Except.error err
  | Except.ok cna => Except.ok cna

/-! ## The convergence engine -/

/-- Source lines 118-138. -/
def setDeployOvsAnnotation (req : HcoRequest) (found : NetworkAddonsConfig) : HcoRequest :=
  if req.UpgradeMode then
    let (_, «exists») := GoMap.index req.Instance.ObjectMeta.Annotations "deployOVS"
    if !«exists» then
      let annotations : StrMap :=
        match req.Instance.ObjectMeta.Annotations with
        | none => ∅
        | some m => m
      let setTo (req : HcoRequest) (v : String) : HcoRequest :=
        { req with Instance := { req.Instance with ObjectMeta :=
            { req.Instance.ObjectMeta with
              Annotations := some (annotations.insert "deployOVS" v) } } }
      let req :=
        if found.Spec.Ovs ≠ none then
          (setTo req "true").logInfo "deployOVS annotation is set to true."
        else
          (setTo req "false").logInfo "deployOVS annotation is set to false."
      { req with Dirty := true }
    else req
  else req

/-- Source lines 105-116. Returns the request (its log), the live object and
the answer. -/
def updateSpec (req : HcoRequest) (found networkAddons : NetworkAddonsConfig) :
    HcoRequest × NetworkAddonsConfig × Bool :=
  if !DeepEqual found.Spec networkAddons.Spec && !req.UpgradeMode then
    let req :=
      if req.HCOTriggered then
        req.logInfo "Updating existing Network Addons's Spec to new opinionated values"
      else
        req.logInfo
          "Reconciling an externally updated Network Addons's Spec to its opinionated values"
    (req, { found with Spec := networkAddons.Spec.DeepCopyInto found.Spec }, true)
  else
    (req, found, false)

/-- Source lines 97-103. Returns the live object and the answer. -/
def updateLabels (found networkAddons : NetworkAddonsConfig) : NetworkAddonsConfig × Bool :=
  if !DeepEqual found.ObjectMeta.Labels networkAddons.ObjectMeta.Labels then
    ({ found with ObjectMeta := DeepCopyLabels networkAddons.ObjectMeta found.ObjectMeta }, true)
  else
    (found, false)

/-- Source lines 89-95, for a client that leaves `found` as passed (for one
that writes into it see `updateCnaCrWriteBack`). Returns the triple
`(bool, bool, error)` and the `Client.Update` calls made, each with its
context and the object passed. -/
def updateCnaCr (req : HcoRequest) (client : Client) (found : NetworkAddonsConfig) :
    (Bool × Bool × Option String) × List (Context × NetworkAddonsConfig) :=
  let err := client.Update req.Ctx found
  let calls := [(req.Ctx, found)]
  match err with
  | some e => ((false, false, some e), calls)
  | none => ((true, !req.HCOTriggered, none), calls)

/-- The state after a call of `updateCr`: the request and the two objects as
the call leaves them, the returned triple `ret`, and the `Client.Update`
calls made. -/
structure UpdateCrResult where
  req : HcoRequest
  found : RuntimeObject
  required : RuntimeObject
  ret : Bool × Bool × Option String
  calls : List (Context × NetworkAddonsConfig)

/-- Source lines 69-87, for a client that leaves the live object as passed
(for one that writes into it see `updateCrWriteBack`). -/
def updateCr (req : HcoRequest) (client : Client) («exists» required : RuntimeObject) :
    UpdateCrResult :=
  match required, «exists» with
  | RuntimeObject.cna networkAddons, RuntimeObject.cna found =>
    let req := setDeployOvsAnnotation req found
    let (req, found, changed) := updateSpec req found networkAddons
    let (found, changedLabels) := updateLabels found networkAddons
    let changed := changedLabels || changed
    if changed then
      let (ret, calls) := updateCnaCr req client found
      { req := req, found := RuntimeObject.cna found,
        required := RuntimeObject.cna networkAddons, ret := ret, calls := calls }
    else
      { req := req, found := RuntimeObject.cna found,
        required := RuntimeObject.cna networkAddons, ret := (false, false, none), calls := [] }
  | _, _ =>
    { req := req, found := «exists», required := required,
      ret := (false, false, some "can't convert to CNA"), calls := [] }

/-! ## The update call with write-back

`Client.Update` receives the pointer `found` (source line 90) and may write
into the object: the controller-runtime clients decode the server's reply,
with its resource version and generation, into it. -/

/-- A `client.Client` whose `Update` may write into the object passed: the
first component is the object as the call leaves it, the second the error or
nil. -/
structure WriteBackClient where
  Update : Context → NetworkAddonsConfig → NetworkAddonsConfig × Option String

/-- A client that leaves the object as it was passed. -/
def Client.toWriteBack (c : Client) : WriteBackClient :=
  { Update := fun ctx obj => (obj, c.Update ctx obj) }

/-- Source lines 89-95, for a client that may write into `found`. Returns
`found` as the call leaves it, the triple `(bool, bool, error)` and the
`Client.Update` calls made, each with its context and the object passed. -/
def updateCnaCrWriteBack (req : HcoRequest) (client : WriteBackClient)
    (found : NetworkAddonsConfig) :
    NetworkAddonsConfig × (Bool × Bool × Option String) ×
      List (Context × NetworkAddonsConfig) :=
  let (after, err) := client.Update req.Ctx found
  let calls := [(req.Ctx, found)]
  match err with
  | some e => (after, (false, false, some e), calls)
  | none => (after, (true, !req.HCOTriggered, none), calls)

/-- Source lines 69-87, for a client that may write into the live object. -/
def updateCrWriteBack (req : HcoRequest) (client : WriteBackClient)
    («exists» required : RuntimeObject) : UpdateCrResult :=
  match required, «exists» with
  | RuntimeObject.cna networkAddons, RuntimeObject.cna found =>
    let req := setDeployOvsAnnotation req found
    let (req, found, changed) := updateSpec req found networkAddons
    let (found, changedLabels) := updateLabels found networkAddons
    let changed := changedLabels || changed
    if changed then
      let (found, ret, calls) := updateCnaCrWriteBack req client found
      { req := req, found := RuntimeObject.cna found,
        required := RuntimeObject.cna networkAddons, ret := ret, calls := calls }
    else
      { req := req, found := RuntimeObject.cna found,
        required := RuntimeObject.cna networkAddons, ret := (false, false, none), calls := [] }
  | _, _ =>
    { req := req, found := «exists», required := required,
      ret := (false, false, some "can't convert to CNA"), calls := [] }

/-! ## The desired-object cache -/

/-- Source lines 38-40. -/
structure cnaHooks where
  cache : Option NetworkAddonsConfig := none

/-- Source lines 42-51. Returns the hooks after the call and the pair
`(client.Object, error)` as a result. `NewNetworkAddons` is called without
options. -/
def cnaHooks.getFullCr (env : Env) (h : cnaHooks) (hc : HyperConverged) :
    cnaHooks × Except String NetworkAddonsConfig :=
  match h.cache with
  | none =>
    match NewNetworkAddons env hc [] with
    | Except.error err => (h, Except.error err)
    | Except.ok cna => ({ h with cache := some cna }, Except.ok cna)
  | some cna => (h, Except.ok cna)

/-- Source lines 65-67. -/
def cnaHooks.reset (h : cnaHooks) : cnaHooks := { h with cache := none }

/-- An operation of the engine on the hooks. -/
inductive HookOp where
  | getFullCr (hc : HyperConverged)
  | reset

/-- The hooks after one operation. -/
def HookOp.step (env : Env) (h : cnaHooks) (op : HookOp) : cnaHooks :=
  match op with
  | HookOp.getFullCr hc => (cnaHooks.getFullCr env h hc).1
  | HookOp.reset => cnaHooks.reset h

/-- The hooks after a sequence of operations, oldest first. -/
def runHooks (env : Env) (h : cnaHooks) (ops : List HookOp) : cnaHooks :=
  ops.foldl (HookOp.step env) h

/-- The parents of the `getFullCr` calls made since the last `reset`, oldest
first. -/
def sinceLastReset (ops : List HookOp) : List HyperConverged :=
  ops.foldl
    (fun hcs op =>
      match op with
      | HookOp.getFullCr hc => hcs ++ [hc]
      | HookOp.reset => [])
    []

/-- The object `NewNetworkAddons` builds for the first parent of the list for
which it succeeds. -/
def firstBuilt (env : Env) (hcs : List HyperConverged) : Option NetworkAddonsConfig :=
  hcs.findSome? (fun hc =>
    match NewNetworkAddons env hc [] with
    | Except.ok cna => some cna
    | Except.error _ => none)

/-! ## Example values -/

/-- The spec of a successfully built object. -/
def builtSpec (r : Except String NetworkAddonsConfig) : Option NetworkAddonsConfigSpec :=
  match r with
  | Except.ok cna => some cna.Spec
  | Except.error _ => none

/-- The patch `[{"op":"add","path":"/spec/ovs","value":{}}]`. -/
def addOvsPatch : String :=
  "[\x7b\"op\":\"add\",\"path\":\"/spec/ovs\",\"value\":\x7b\x7d\x7d]"

/-- The patch `[{"op":"add","path":"/spec/placementConfiguration","value":{}}]`. -/
def addPlacementPatch : String :=
  "[\x7b\"op\":\"add\",\"path\":\"/spec/placementConfiguration\",\"value\":\x7b\x7d\x7d]"

/-- A JSON-patch engine that knows the two patches above, each one RFC 6902
"add" of an empty object, which sets the member to an empty block. Every
other text is rejected. -/
def addEmptyObjectPatch (patch : String) (obj : NetworkAddonsConfig) :
    Except String NetworkAddonsConfig :=
  if patch = addOvsPatch then
    Except.ok { obj with Spec := { obj.Spec with Ovs := some {} } }
  else if patch = addPlacementPatch then
    Except.ok { obj with Spec := { obj.Spec with PlacementConfiguration := some {} } }
  else
    Except.error "unsupported patch"

/-- An environment for the examples. -/
def exampleEnv : Env where
  OPERATOR_CONFIG := "cluster"
  AppComponentNetwork := "network"
  UndefinedNamespace := ""
  JSONPatchCNAOAnnotationName := "networkaddonsconfigs.kubevirt.io/jsonpatch"
  getLabels := fun hc component =>
    some ((Finmap.singleton "app" hc.ObjectMeta.Name).insert
      "app.kubernetes.io/component" component)
  getNamespace := fun defaultNamespace opts =>
    match opts with
    | [] => defaultNamespace
    | o :: _ => o
  jsonPatch := addEmptyObjectPatch

/-- A placement preference with all three parts set. -/
def examplePlacement : NodePlacement :=
  { NodeSelector := some ((Finmap.singleton "zone" "a").insert "disk" "ssd")
    Affinity := some { NodeAffinity := some ["kubernetes.io/arch In amd64"] }
    Tolerations := some [{ Key := "dedicated", Operator := "Exists" },
      { Key := "gpu", Operator := "Equal", Value := "yes", TolerationSeconds := some 30 }] }

/-- The placement the translator gives for `examplePlacement`. -/
def examplePlacementCopy : Placement :=
  { NodeSelector := some ((Finmap.singleton "zone" "a").insert "disk" "ssd")
    Affinity := { NodeAffinity := some ["kubernetes.io/arch In amd64"] }
    Tolerations := some [{ Key := "dedicated", Operator := "Exists" },
      { Key := "gpu", Operator := "Equal", Value := "yes", TolerationSeconds := some 30 }] }

/-- A parent without the deployOVS annotation whose overlay adds `/spec/ovs`. -/
def parentWithOvsPatch : HyperConverged :=
  { ObjectMeta :=
      { Name := "kubevirt-hyperconverged"
        Annotations :=
          some (Finmap.singleton "networkaddonsconfigs.kubevirt.io/jsonpatch" addOvsPatch) } }

/-- A parent without any node placement whose overlay adds
`/spec/placementConfiguration`. -/
def parentWithPlacementPatch : HyperConverged :=
  { ObjectMeta :=
      { Name := "kubevirt-hyperconverged"
        Annotations :=
          some (Finmap.singleton "networkaddonsconfigs.kubevirt.io/jsonpatch"
            addPlacementPatch) } }

/-- A parent with `deployOVS: "true"`, an infra placement and no overlay. -/
def parentWithOvs : HyperConverged :=
  { ObjectMeta :=
      { Name := "kubevirt-hyperconverged"
        Annotations := some (Finmap.singleton "deployOVS" "true") }
    Spec := { Infra := { NodePlacement := some examplePlacement } } }

/-- A parent with `deployOVS: "true"` and a workloads placement whose overlay
adds `/spec/ovs`. -/
def parentWithOvsAndPatch : HyperConverged :=
  { ObjectMeta :=
      { Name := "kubevirt-hyperconverged"
        Annotations :=
          some ((Finmap.singleton "networkaddonsconfigs.kubevirt.io/jsonpatch" addOvsPatch).insert
            "deployOVS" "true") }
    Spec := { Workloads := { NodePlacement := some examplePlacement } } }

/-- A client whose update call succeeds. -/
def okClient : Client := { Update := fun _ _ => none }

/-- A client whose update call fails. -/
def failingClient : Client := { Update := fun _ _ => some "conflict" }

/-- A live object with labels `{a:1}` and the Ovs block set. -/
def liveCna : NetworkAddonsConfig :=
  { ObjectMeta := { Name := "cluster", Labels := some (Finmap.singleton "a" "1") }
    Spec := { Multus := some {}, Ovs := some {} } }

/-- A desired object with labels `{a:1,b:2}` and the four baseline blocks. -/
def desiredCna : NetworkAddonsConfig :=
  { ObjectMeta :=
      { Name := "cluster", Labels := some ((Finmap.singleton "a" "1").insert "b" "2") }
    Spec := { Multus := some {}, LinuxBridge := some {}, NMState := some {},
              KubeMacPool := some {} } }

/-- The live object with the desired object's spec: only the labels differ. -/
def liveCnaSameSpec : NetworkAddonsConfig := { liveCna with Spec := desiredCna.Spec }

/-- A request in normal mode coming from an external actor. -/
def normalReq : HcoRequest := { Ctx := 7 }

/-- A request in upgrade mode. -/
def upgradeReq : HcoRequest := { Ctx := 7, UpgradeMode := true, HCOTriggered := true }

/-- A live object without the Ovs block. -/
def liveCnaNoOvs : NetworkAddonsConfig :=
  { ObjectMeta := { Name := "cluster", Labels := some (Finmap.singleton "a" "1") }
    Spec := { Multus := some {} } }

/-- A request in upgrade mode whose parent already carries `deployOVS: "maybe"`. -/
def upgradeReqWithKey : HcoRequest :=
  { Ctx := 7, UpgradeMode := true
    Instance := { ObjectMeta := { Annotations := some (Finmap.singleton "deployOVS" "maybe") } } }

/-- A live object with the desired labels whose spec has drifted. -/
def liveCnaSameLabels : NetworkAddonsConfig :=
  { liveCna with ObjectMeta := { liveCna.ObjectMeta with Labels := desiredCna.ObjectMeta.Labels } }

/-- An owner reference to the parent. -/
def parentOwnerReference : OwnerReference :=
  { APIVersion := "hco.kubevirt.io/v1beta1", Kind := "HyperConverged",
    Name := "kubevirt-hyperconverged", UID := "77" }

/-- A live object with annotations, an owner reference, a resource version
and a status. -/
def liveCnaFull : NetworkAddonsConfig :=
  { ObjectMeta :=
      { Name := "cluster"
        UID := "0a1b"
        ResourceVersion := "41"
        Generation := 3
        Labels := some (Finmap.singleton "a" "1")
        Annotations := some (Finmap.singleton "note" "kept")
        OwnerReferences := some [parentOwnerReference] }
    Spec := { Multus := some {}, Ovs := some {}, ImagePullPolicy := "Always" }
    Status :=
      { ObservedVersion := "0.44.0"
        Conditions := some [{ CondType := "Available", Status := "True" }] } }

/-- A parent whose overlay annotation is not a patch the engine accepts. -/
def parentWithBadPatch : HyperConverged :=
  { ObjectMeta :=
      { Name := "kubevirt-hyperconverged"
        Annotations :=
          some (Finmap.singleton "networkaddonsconfigs.kubevirt.io/jsonpatch" "not a patch") } }

/-- A pass in which the first build fails, the second succeeds and a third
parent is asked for afterwards. -/
def examplePass : List HookOp :=
  [HookOp.reset, HookOp.getFullCr parentWithBadPatch, HookOp.getFullCr parentWithOvsPatch,
    HookOp.getFullCr parentWithPlacementPatch]

/-- A request in upgrade mode whose parent has no deployOVS annotation and an
overlay that adds `/spec/ovs`. -/
def upgradeReqWithOvsPatch : HcoRequest :=
  { Ctx := 7, UpgradeMode := true, Instance := parentWithOvsPatch }

/-- A client that answers as an API server accepting the update does: the
object comes back with a new resource version and the next generation. -/
def acceptingClient : WriteBackClient :=
  { Update := fun _ obj =>
      ({ obj with ObjectMeta :=
          { obj.ObjectMeta with
            ResourceVersion := "42"
            Generation := obj.ObjectMeta.Generation + 1 } }, none) }

/-! ## Facts about maps and slices -/

theorem goMap_index_eq (m : GoMap) (k : String) :
    GoMap.index m k =
      match GoMap.lookup m k with
      | some v => (v, true)
      | none => ("", false) := by
  cases m with
  | none => rfl
  | some f => simp only [GoMap.index, GoMap.lookup]

theorem lookup_assignAll (es : List (Sigma (fun _ : String => String))) (dst : StrMap)
    (k : String) (hnd : es.NodupKeys) :
    (assignAll dst es).lookup k = (es.dlookup k).orElse (fun _ => dst.lookup k) := by
  induction es generalizing dst with
  | nil => simp [assignAll]
  | cons e es ih =>
    obtain ⟨a, b⟩ := e
    have hnd' := List.nodupKeys_cons.mp hnd
    have h := ih (dst.insert a b) hnd'.2
    simp only [assignAll, List.foldl_cons] at h ⊢
    rw [h]
    by_cases hk : a = k
    · subst hk
      have hn : es.dlookup a = none := by
        rw [List.dlookup_eq_none]; exact hnd'.1
      simp [hn, Finmap.lookup_insert]
    · have hk' : k ≠ a := fun h => hk h.symm
      simp [List.dlookup_cons_ne es ⟨a, b⟩ hk', Finmap.lookup_insert_of_ne _ hk']

theorem strMap_lookup_rangeAssign (src dst : StrMap) (k : String) :
    (StrMap.rangeAssign src dst).lookup k = (src.lookup k).orElse (fun _ => dst.lookup k) := by
  induction src using Finmap.induction_on with
  | H a =>
    simp only [StrMap.rangeAssign, Finmap.liftOn_toFinmap, Finmap.lookup_toFinmap]
    rw [lookup_assignAll _ _ _ a.nodupKeys]
    rfl

theorem strMap_rangeAssign_empty (src : StrMap) : StrMap.rangeAssign src ∅ = src := by
  apply Finmap.ext_lookup
  intro k
  rw [strMap_lookup_rangeAssign]
  cases src.lookup k <;> simp [Finmap.lookup_empty]

theorem strMap_card_eq_zero (m : StrMap) : Multiset.card m.entries = 0 ↔ m = ∅ := by
  constructor
  · intro h
    apply Finmap.ext
    rw [Multiset.card_eq_zero.mp h]
    rfl
  · intro h
    subst h
    rfl

theorem goMap_len_eq_zero (m : GoMap) : GoMap.len m = 0 ↔ m = none ∨ m = some ∅ := by
  cases m with
  | none => simp [GoMap.len]
  | some f => simp only [GoMap.len, strMap_card_eq_zero]; simp

theorem goSlice_len_eq_zero {α : Type} (s : GoSlice α) :
    GoSlice.len s = 0 ↔ s = none ∨ s = some [] := by
  cases s with
  | none => simp [GoSlice.len, GoSlice.elems]
  | some l => simp [GoSlice.len, GoSlice.elems]

/-- The toleration loop of `hcoConfig2CnaoPlacement`, run from any state. -/
theorem tolerations_loop (l : List Toleration) (e : Bool) (pl : Placement) :
    l.foldl
        (fun (st : Bool × Placement) hcoTol =>
          let cnaoTol : Toleration := {}
          let cnaoTol := hcoTol.DeepCopyInto cnaoTol
          (false, { st.2 with Tolerations := GoSlice.append st.2.Tolerations cnaoTol }))
        (e, pl) =
      (e && l.isEmpty,
        { pl with Tolerations :=
            if l.isEmpty then pl.Tolerations else some (GoSlice.elems pl.Tolerations ++ l) }) := by
  induction l generalizing e pl with
  | nil => simp
  | cons t l ih =>
    simp only [List.foldl_cons, ih]
    cases l <;> simp [GoSlice.append, GoSlice.elems, Toleration.DeepCopyInto]

theorem goMap_rangeAssign_empty (src : GoMap) (h : 0 < GoMap.len src) :
    (some (GoMap.rangeAssign src ∅) : GoMap) = src := by
  cases src with
  | none => simp [GoMap.len] at h
  | some m => simp [GoMap.rangeAssign, strMap_rangeAssign_empty]

/-- The placement `hcoConfig2CnaoPlacement` builds before it decides whether
to return it. -/
theorem hcoConfig2CnaoPlacement_some (c : NodePlacement) :
    hcoConfig2CnaoPlacement (some c) =
      if c.Affinity = none ∧ GoSlice.elems c.Tolerations = [] ∧ GoMap.len c.NodeSelector = 0 then
        none
      else
        some
          { NodeSelector := if 0 < GoMap.len c.NodeSelector then c.NodeSelector else none
            Affinity := c.Affinity.getD {}
            Tolerations :=
              if GoSlice.elems c.Tolerations = [] then none
              else some (GoSlice.elems c.Tolerations) } := by
  obtain ⟨sel, aff, tol⟩ := c
  simp only [hcoConfig2CnaoPlacement]
  cases aff with
  | none =>
    simp only [tolerations_loop]
    by_cases hs : 0 < GoMap.len sel
    · simp [hs, goMap_rangeAssign_empty sel hs, GoSlice.elems, Nat.pos_iff_ne_zero.mp hs]
    · have hs0 : GoMap.len sel = 0 := by omega
      cases htl : GoSlice.elems tol <;> simp [hs0, GoSlice.elems]
  | some a =>
    simp only [tolerations_loop, Affinity.DeepCopyInto]
    by_cases hs : 0 < GoMap.len sel
    · simp [hs, goMap_rangeAssign_empty sel hs, GoSlice.elems]
    · have hs0 : GoMap.len sel = 0 := by omega
      cases htl : GoSlice.elems tol <;> simp [hs0, GoSlice.elems]

/-! ## The annotation flag resolver -/

/-- The resolver as a test on the stored value. -/
theorem hcoAnnotation2CnaoSpec_eq (m : GoMap) :
    hcoAnnotation2CnaoSpec m =
      if GoMap.lookup m "deployOVS" = some "true" then some {} else none := by
  simp only [hcoAnnotation2CnaoSpec, goMap_index_eq]
  cases h : GoMap.lookup m "deployOVS" with
  | none => simp
  | some v => by_cases hv : v = "true" <;> simp [hv]

/-- C1: for every annotation map, the nil map included,
`hcoAnnotation2CnaoSpec` returns a present Ovs block, with the empty payload,
if and only if the map has the key "deployOVS" with value exactly "true", and
returns absent in every other case: the nil map, a missing key, the empty
string, "false", "True" or any other value. -/
theorem hcoAnnotation2CnaoSpec_iff (m : GoMap) :
    (hcoAnnotation2CnaoSpec m = some {} ↔ GoMap.lookup m "deployOVS" = some "true") ∧
    (hcoAnnotation2CnaoSpec m = none ↔ GoMap.lookup m "deployOVS" ≠ some "true") ∧
    hcoAnnotation2CnaoSpec none = none ∧
    (GoMap.lookup m "deployOVS" = none → hcoAnnotation2CnaoSpec m = none) ∧
    (∀ v, v ≠ "true" → GoMap.lookup m "deployOVS" = some v → hcoAnnotation2CnaoSpec m = none) ∧
    (∀ v ∈ ["", "false", "True"],
      GoMap.lookup m "deployOVS" = some v → hcoAnnotation2CnaoSpec m = none) := by
  have key := hcoAnnotation2CnaoSpec_eq m
  refine ⟨?_, ?_, rfl, ?_, ?_, ?_⟩
  · rw [key]; split <;> simp_all
  · rw [key]; split <;> simp_all
  · intro h; rw [key]; simp [h]
  · intro v hv h; rw [key]; simp [h, hv]
  · intro v hv h
    rw [key, h]
    have : v ≠ "true" := by
      simp only [List.mem_cons, List.mem_singleton, List.mem_nil_iff, or_false] at hv
      rcases hv with rfl | rfl | rfl <;> decide
    simp [this]

/-! ## The placement translator -/

/-- C2: `hcoConfig2CnaoPlacement` returns absent if and only if its input is
absent, or has Affinity unset, no Tolerations (a nil or an empty list) and no
NodeSelector entries (a nil or an empty map); in every other case the result
is present. -/
theorem hcoConfig2CnaoPlacement_absent_iff (p : Option NodePlacement) :
    (hcoConfig2CnaoPlacement p = none ↔
      p = none ∨
      ∃ c, p = some c ∧ c.Affinity = none ∧
        (c.Tolerations = none ∨ c.Tolerations = some []) ∧
        (c.NodeSelector = none ∨ c.NodeSelector = some ∅)) ∧
    ((hcoConfig2CnaoPlacement p).isSome = true ↔
      ∃ c, p = some c ∧ ¬ (c.Affinity = none ∧
        (c.Tolerations = none ∨ c.Tolerations = some []) ∧
        (c.NodeSelector = none ∨ c.NodeSelector = some ∅))) := by
  cases p with
  | none => simp [hcoConfig2CnaoPlacement]
  | some c =>
    have hl : GoSlice.elems c.Tolerations = [] ↔
        (c.Tolerations = none ∨ c.Tolerations = some []) := by
      rw [← goSlice_len_eq_zero, GoSlice.len, List.length_eq_zero]
    have hm := goMap_len_eq_zero c.NodeSelector
    rw [hcoConfig2CnaoPlacement_some]
    by_cases hc : c.Affinity = none ∧ GoSlice.elems c.Tolerations = [] ∧
        GoMap.len c.NodeSelector = 0
    · rw [if_pos hc]
      have hc' := hc
      rw [hl, hm] at hc'
      refine ⟨⟨fun _ => Or.inr ⟨c, rfl, hc'⟩, fun _ => rfl⟩, ?_⟩
      constructor
      · intro h; exact absurd h (by simp)
      · rintro ⟨c1, h1, h2⟩
        cases h1
        exact absurd hc' h2
    · rw [if_neg hc]
      have hc' := hc
      rw [hl, hm] at hc'
      simp only [Option.some.injEq, exists_eq_left', Option.isSome_some, true_iff]
      exact ⟨by simpa using hc', hc'⟩

/-- C3: when `hcoConfig2CnaoPlacement` returns a placement, its Tolerations
are the input's, entry by entry in the same order (so of the same length),
its NodeSelector holds exactly the input's key/value pairs, and its Affinity
is the value the input's Affinity points to, or the zero Affinity when that
pointer is nil. -/
theorem hcoConfig2CnaoPlacement_copies (c : NodePlacement) (r : Placement)
    (h : hcoConfig2CnaoPlacement (some c) = some r) :
    GoSlice.elems r.Tolerations = GoSlice.elems c.Tolerations ∧
    GoSlice.len r.Tolerations = GoSlice.len c.Tolerations ∧
    (∀ i : Nat, (GoSlice.elems r.Tolerations)[i]? = (GoSlice.elems c.Tolerations)[i]?) ∧
    (∀ k, GoMap.lookup r.NodeSelector k = GoMap.lookup c.NodeSelector k) ∧
    GoMap.len r.NodeSelector = GoMap.len c.NodeSelector ∧
    r.Affinity = (match c.Affinity with
      | some a => a
      | none => {}) := by
  rw [hcoConfig2CnaoPlacement_some] at h
  split at h
  · exact absurd h (by simp)
  · have hr := Option.some.inj h
    subst hr
    have ht : GoSlice.elems
        (if GoSlice.elems c.Tolerations = [] then (none : GoSlice Toleration)
          else some (GoSlice.elems c.Tolerations)) = GoSlice.elems c.Tolerations := by
      split
      · next h0 => rw [h0]; rfl
      · rfl
    refine ⟨ht, ?_, ?_, ?_, ?_, ?_⟩
    · simp only [GoSlice.len, ht]
    · intro i; simp only [ht]
    · intro k
      by_cases hs : 0 < GoMap.len c.NodeSelector
      · simp only [if_pos hs]
      · have hs0 : GoMap.len c.NodeSelector = 0 := by omega
        simp only [if_neg hs]
        rcases (goMap_len_eq_zero _).mp hs0 with h1 | h1 <;>
          simp [h1, GoMap.lookup, Finmap.lookup_empty]
    · by_cases hs : 0 < GoMap.len c.NodeSelector
      · simp only [if_pos hs]
      · have hs0 : GoMap.len c.NodeSelector = 0 := by omega
        simp only [if_neg hs, hs0]
        rfl
    · cases c.Affinity <;> rfl

/-- The translation of the example placement. -/
theorem examplePlacement_translated :
    hcoConfig2CnaoPlacement (some examplePlacement) = some examplePlacementCopy := by
  rw [hcoConfig2CnaoPlacement_some]; decide

/-- Witness for C3 on a placement with a two-entry selector, an affinity and
two tolerations. -/
theorem hcoConfig2CnaoPlacement_copies_witness :
    hcoConfig2CnaoPlacement (some examplePlacement) = some examplePlacementCopy ∧
    GoSlice.elems examplePlacementCopy.Tolerations =
      GoSlice.elems examplePlacement.Tolerations ∧
    (∀ k, GoMap.lookup examplePlacementCopy.NodeSelector k =
      GoMap.lookup examplePlacement.NodeSelector k) :=
  have h := examplePlacement_translated
  ⟨h, (hcoConfig2CnaoPlacement_copies examplePlacement examplePlacementCopy h).1,
    (hcoConfig2CnaoPlacement_copies examplePlacement examplePlacementCopy h).2.2.2.1⟩

/-! ## The spec translator -/

/-- The object `NewNetworkAddons` hands to the overlay step. -/
theorem NewNetworkAddons_eq (env : Env) (hc : HyperConverged) (opts : List String) :
    NewNetworkAddons env hc opts =
      applyPatchToSpec env hc env.JSONPatchCNAOAnnotationName
        { NewNetworkAddonsWithNameOnly env hc opts with
          Spec :=
            { Multus := some {}
              LinuxBridge := some {}
              NMState := some {}
              KubeMacPool := some {}
              Ovs := hcoAnnotation2CnaoSpec hc.ObjectMeta.Annotations
              PlacementConfiguration :=
                if hcoConfig2CnaoPlacement hc.Spec.Infra.NodePlacement ≠ none ∨
                    hcoConfig2CnaoPlacement hc.Spec.Workloads.NodePlacement ≠ none then
                  some { Infra := hcoConfig2CnaoPlacement hc.Spec.Infra.NodePlacement
                         Workloads := hcoConfig2CnaoPlacement hc.Spec.Workloads.NodePlacement }
                else none } } := by
  simp only [NewNetworkAddons]
  split <;> split <;> simp_all

/-- The overlay step without an overlay annotation. -/
theorem applyPatchToSpec_no_overlay (env : Env) (hc : HyperConverged) (name : String)
    (obj : NetworkAddonsConfig) (h : GoMap.lookup hc.ObjectMeta.Annotations name = none) :
    applyPatchToSpec env hc name obj = Except.ok obj := by
  simp [applyPatchToSpec, goMap_index_eq, h]

/-- The overlay step with an overlay annotation. -/
theorem applyPatchToSpec_overlay (env : Env) (hc : HyperConverged) (name : String)
    (obj : NetworkAddonsConfig) (patch : String)
    (h : GoMap.lookup hc.ObjectMeta.Annotations name = some patch) :
    applyPatchToSpec env hc name obj = env.jsonPatch patch obj := by
  simp [applyPatchToSpec, goMap_index_eq, h]

/-- Counterexample to C4 as stated: a parent without the deployOVS annotation,
for which the resolver returns absent, whose JSON-patch overlay adds
`/spec/ovs`; `NewNetworkAddons` succeeds and the returned Spec.Ovs is present. -/
theorem NewNetworkAddons_ovs_overlay_counterexample :
    GoMap.lookup parentWithOvsPatch.ObjectMeta.Annotations "deployOVS" = none ∧
    hcoAnnotation2CnaoSpec parentWithOvsPatch.ObjectMeta.Annotations = none ∧
    builtSpec (NewNetworkAddons exampleEnv parentWithOvsPatch []) =
      some { Multus := some {}, LinuxBridge := some {}, NMState := some {},
             KubeMacPool := some {}, Ovs := some {} } := by
  decide

/-- C4, amended: for every parent whose JSON-patch overlay is absent or
leaves Spec.Ovs as it finds it: without an overlay annotation
`NewNetworkAddons` succeeds, and whenever it succeeds the returned Spec.Ovs
is what `hcoAnnotation2CnaoSpec` gives for the parent's annotations: present,
with the empty payload, if and only if the parent has deployOVS with value
exactly "true", and absent for a parent without the deployOVS annotation. -/
theorem NewNetworkAddons_ovs (env : Env) (hc : HyperConverged) (opts : List String)
    (hp : GoMap.lookup hc.ObjectMeta.Annotations env.JSONPatchCNAOAnnotationName = none ∨
      ∀ o o', env.jsonPatch
        (GoMap.index hc.ObjectMeta.Annotations env.JSONPatchCNAOAnnotationName).1 o =
          Except.ok o' → o'.Spec.Ovs = o.Spec.Ovs) :
    (GoMap.lookup hc.ObjectMeta.Annotations env.JSONPatchCNAOAnnotationName = none →
      ∃ cna, NewNetworkAddons env hc opts = Except.ok cna) ∧
    ∀ cna, NewNetworkAddons env hc opts = Except.ok cna →
      cna.Spec.Ovs = hcoAnnotation2CnaoSpec hc.ObjectMeta.Annotations ∧
      (cna.Spec.Ovs = some {} ↔
        GoMap.lookup hc.ObjectMeta.Annotations "deployOVS" = some "true") ∧
      (GoMap.lookup hc.ObjectMeta.Annotations "deployOVS" = none → cna.Spec.Ovs = none) := by
  have hovs : ∀ cna, NewNetworkAddons env hc opts = Except.ok cna →
      cna.Spec.Ovs = hcoAnnotation2CnaoSpec hc.ObjectMeta.Annotations := by
    intro cna hok
    rw [NewNetworkAddons_eq] at hok
    cases hl : GoMap.lookup hc.ObjectMeta.Annotations env.JSONPatchCNAOAnnotationName with
    | none =>
      rw [applyPatchToSpec_no_overlay env hc _ _ hl] at hok
      cases hok
      rfl
    | some patch =>
      rw [applyPatchToSpec_overlay env hc _ _ patch hl] at hok
      rcases hp with hp | hp
      · rw [hl] at hp; cases hp
      · have := hp _ cna (by rw [goMap_index_eq, hl]; exact hok)
        rw [this]
  refine ⟨?_, ?_⟩
  · intro hl
    rw [NewNetworkAddons_eq, applyPatchToSpec_no_overlay env hc _ _ hl]
    exact ⟨_, rfl⟩
  · intro cna hok
    have h := hovs cna hok
    refine ⟨h, ?_, ?_⟩
    · rw [h, hcoAnnotation2CnaoSpec_eq]; split <;> simp_all
    · intro hn; rw [h, hcoAnnotation2CnaoSpec_eq]; simp [hn]

/-- Witness for C4, amended: a parent with deployOVS "true" and no overlay. -/
theorem NewNetworkAddons_ovs_witness :
    GoMap.lookup parentWithOvs.ObjectMeta.Annotations
      exampleEnv.JSONPatchCNAOAnnotationName = none ∧
    (∃ cna, NewNetworkAddons exampleEnv parentWithOvs [] = Except.ok cna) ∧
    ∀ cna, NewNetworkAddons exampleEnv parentWithOvs [] = Except.ok cna →
      cna.Spec.Ovs = some {} :=
  have hl : GoMap.lookup parentWithOvs.ObjectMeta.Annotations
      exampleEnv.JSONPatchCNAOAnnotationName = none := by decide
  ⟨hl, (NewNetworkAddons_ovs exampleEnv parentWithOvs [] (Or.inl hl)).1 hl,
    fun cna hok =>
      ((NewNetworkAddons_ovs exampleEnv parentWithOvs [] (Or.inl hl)).2 cna hok).2.1.mpr
        (by decide)⟩

/-- Counterexample to C5 as stated: a parent with no node placement at all,
so both translations are absent, whose JSON-patch overlay adds
`/spec/placementConfiguration`; `NewNetworkAddons` succeeds and the returned
Spec.PlacementConfiguration is present. -/
theorem NewNetworkAddons_placement_overlay_counterexample :
    hcoConfig2CnaoPlacement parentWithPlacementPatch.Spec.Infra.NodePlacement = none ∧
    hcoConfig2CnaoPlacement parentWithPlacementPatch.Spec.Workloads.NodePlacement = none ∧
    builtSpec (NewNetworkAddons exampleEnv parentWithPlacementPatch []) =
      some { Multus := some {}, LinuxBridge := some {}, NMState := some {},
             KubeMacPool := some {},
             PlacementConfiguration := some { Infra := none, Workloads := none } } := by
  decide

/-- C5, amended: for every parent whose JSON-patch overlay is absent or
leaves Spec.PlacementConfiguration as it finds it: without an overlay
annotation `NewNetworkAddons` succeeds, and whenever it succeeds the returned
Spec.PlacementConfiguration is present if and only if at least one of the two
placement translations is present, and when present its Infra field is the
translation of the infra placement and its Workloads field the translation of
the workloads placement. -/
theorem NewNetworkAddons_placement (env : Env) (hc : HyperConverged) (opts : List String)
    (hp : GoMap.lookup hc.ObjectMeta.Annotations env.JSONPatchCNAOAnnotationName = none ∨
      ∀ o o', env.jsonPatch
        (GoMap.index hc.ObjectMeta.Annotations env.JSONPatchCNAOAnnotationName).1 o =
          Except.ok o' → o'.Spec.PlacementConfiguration = o.Spec.PlacementConfiguration) :
    (GoMap.lookup hc.ObjectMeta.Annotations env.JSONPatchCNAOAnnotationName = none →
      ∃ cna, NewNetworkAddons env hc opts = Except.ok cna) ∧
    ∀ cna, NewNetworkAddons env hc opts = Except.ok cna →
      (cna.Spec.PlacementConfiguration ≠ none ↔
        hcoConfig2CnaoPlacement hc.Spec.Infra.NodePlacement ≠ none ∨
        hcoConfig2CnaoPlacement hc.Spec.Workloads.NodePlacement ≠ none) ∧
      ∀ pc, cna.Spec.PlacementConfiguration = some pc →
        pc.Infra = hcoConfig2CnaoPlacement hc.Spec.Infra.NodePlacement ∧
        pc.Workloads = hcoConfig2CnaoPlacement hc.Spec.Workloads.NodePlacement := by
  have hpc : ∀ cna, NewNetworkAddons env hc opts = Except.ok cna →
      cna.Spec.PlacementConfiguration =
        if hcoConfig2CnaoPlacement hc.Spec.Infra.NodePlacement ≠ none ∨
            hcoConfig2CnaoPlacement hc.Spec.Workloads.NodePlacement ≠ none then
          some { Infra := hcoConfig2CnaoPlacement hc.Spec.Infra.NodePlacement
                 Workloads := hcoConfig2CnaoPlacement hc.Spec.Workloads.NodePlacement }
        else none := by
    intro cna hok
    rw [NewNetworkAddons_eq] at hok
    cases hl : GoMap.lookup hc.ObjectMeta.Annotations env.JSONPatchCNAOAnnotationName with
    | none =>
      rw [applyPatchToSpec_no_overlay env hc _ _ hl] at hok
      cases hok
      rfl
    | some patch =>
      rw [applyPatchToSpec_overlay env hc _ _ patch hl] at hok
      rcases hp with hp | hp
      · rw [hl] at hp; cases hp
      · have := hp _ cna (by rw [goMap_index_eq, hl]; exact hok)
        rw [this]
  refine ⟨?_, ?_⟩
  · intro hl
    rw [NewNetworkAddons_eq, applyPatchToSpec_no_overlay env hc _ _ hl]
    exact ⟨_, rfl⟩
  · intro cna hok
    rw [hpc cna hok]
    constructor
    · split <;> simp_all
    · intro pc hpceq
      split at hpceq
      · cases hpceq; exact ⟨rfl, rfl⟩
      · cases hpceq

/-- Witness for C5, amended: a parent with a workloads placement whose overlay
adds `/spec/ovs` and so leaves the placement block alone. -/
theorem NewNetworkAddons_placement_witness :
    (∀ o o', exampleEnv.jsonPatch
        (GoMap.index parentWithOvsAndPatch.ObjectMeta.Annotations
          exampleEnv.JSONPatchCNAOAnnotationName).1 o =
          Except.ok o' → o'.Spec.PlacementConfiguration = o.Spec.PlacementConfiguration) ∧
    builtSpec (NewNetworkAddons exampleEnv parentWithOvsAndPatch []) =
      some { Multus := some {}, LinuxBridge := some {}, NMState := some {},
             KubeMacPool := some {}, Ovs := some {},
             PlacementConfiguration :=
               some { Infra := none, Workloads := some examplePlacementCopy } } ∧
    ∀ cna, NewNetworkAddons exampleEnv parentWithOvsAndPatch [] = Except.ok cna →
      cna.Spec.PlacementConfiguration ≠ none :=
  have hp : ∀ o o', exampleEnv.jsonPatch
      (GoMap.index parentWithOvsAndPatch.ObjectMeta.Annotations
        exampleEnv.JSONPatchCNAOAnnotationName).1 o =
        Except.ok o' → o'.Spec.PlacementConfiguration = o.Spec.PlacementConfiguration := by
    intro o o' h
    have hidx : (GoMap.index parentWithOvsAndPatch.ObjectMeta.Annotations
        exampleEnv.JSONPatchCNAOAnnotationName).1 = addOvsPatch := by decide
    rw [hidx] at h
    simp only [exampleEnv, addEmptyObjectPatch, if_pos] at h
    cases h
    rfl
  have hb : builtSpec (NewNetworkAddons exampleEnv parentWithOvsAndPatch []) =
      some { Multus := some {}, LinuxBridge := some {}, NMState := some {},
             KubeMacPool := some {}, Ovs := some {},
             PlacementConfiguration :=
               some { Infra := none, Workloads := some examplePlacementCopy } } := by
    have h1 : parentWithOvsAndPatch.Spec.Workloads.NodePlacement = some examplePlacement := rfl
    have h2 : parentWithOvsAndPatch.Spec.Infra.NodePlacement = none := rfl
    rw [NewNetworkAddons_eq, h1, h2, examplePlacement_translated]
    decide
  ⟨hp, hb, fun cna hok =>
    ((NewNetworkAddons_placement exampleEnv parentWithOvsAndPatch [] (Or.inr hp)).2 cna hok).1.mpr
      (Or.inr (by
        have h1 : parentWithOvsAndPatch.Spec.Workloads.NodePlacement = some examplePlacement :=
          rfl
        rw [h1, examplePlacement_translated]
        exact Option.some_ne_none _))⟩

/-! ## The convergence engine -/

theorem updateSpec_eq (req : HcoRequest) (found networkAddons : NetworkAddonsConfig) :
    updateSpec req found networkAddons =
      if found.Spec ≠ networkAddons.Spec ∧ req.UpgradeMode = false then
        (req.logInfo
          (if req.HCOTriggered then
            "Updating existing Network Addons's Spec to new opinionated values"
          else
            "Reconciling an externally updated Network Addons's Spec to its opinionated values"),
          { found with Spec := networkAddons.Spec }, true)
      else (req, found, false) := by
  simp only [updateSpec, DeepEqual, NetworkAddonsConfigSpec.DeepCopyInto]
  by_cases h1 : found.Spec = networkAddons.Spec <;>
    cases h2 : req.UpgradeMode <;> cases h3 : req.HCOTriggered <;> simp [h1]

theorem updateLabels_eq (found networkAddons : NetworkAddonsConfig) :
    updateLabels found networkAddons =
      if found.ObjectMeta.Labels ≠ networkAddons.ObjectMeta.Labels then
        ({ found with
            ObjectMeta := { found.ObjectMeta with Labels := networkAddons.ObjectMeta.Labels } },
          true)
      else (found, false) := by
  simp only [updateLabels, DeepEqual, DeepCopyLabels]
  by_cases h1 : found.ObjectMeta.Labels = networkAddons.ObjectMeta.Labels <;> simp [h1]

theorem updateSpec_spec (req : HcoRequest) (found networkAddons : NetworkAddonsConfig) :
    (updateSpec req found networkAddons).2.1.Spec =
      if req.UpgradeMode = false then networkAddons.Spec else found.Spec := by
  rw [updateSpec_eq]
  by_cases h1 : found.Spec = networkAddons.Spec <;> cases h2 : req.UpgradeMode <;> simp [h1]

theorem updateSpec_labels (req : HcoRequest) (found networkAddons : NetworkAddonsConfig) :
    (updateSpec req found networkAddons).2.1.ObjectMeta = found.ObjectMeta := by
  rw [updateSpec_eq]
  split <;> rfl

theorem updateSpec_changed (req : HcoRequest) (found networkAddons : NetworkAddonsConfig) :
    (updateSpec req found networkAddons).2.2 =
      decide (found.Spec ≠ networkAddons.Spec ∧ req.UpgradeMode = false) := by
  rw [updateSpec_eq]
  split <;> simp_all

theorem updateSpec_req (req : HcoRequest) (found networkAddons : NetworkAddonsConfig) :
    (updateSpec req found networkAddons).1.UpgradeMode = req.UpgradeMode ∧
    (updateSpec req found networkAddons).1.HCOTriggered = req.HCOTriggered ∧
    (updateSpec req found networkAddons).1.Ctx = req.Ctx ∧
    (updateSpec req found networkAddons).1.Instance = req.Instance ∧
    (updateSpec req found networkAddons).1.Dirty = req.Dirty := by
  rw [updateSpec_eq]
  split <;> simp [HcoRequest.logInfo]

theorem updateLabels_labels (found networkAddons : NetworkAddonsConfig) :
    (updateLabels found networkAddons).1.ObjectMeta.Labels = networkAddons.ObjectMeta.Labels := by
  rw [updateLabels_eq]
  split <;> simp_all

theorem updateLabels_spec (found networkAddons : NetworkAddonsConfig) :
    (updateLabels found networkAddons).1.Spec = found.Spec := by
  rw [updateLabels_eq]
  split <;> rfl

theorem updateLabels_changed (found networkAddons : NetworkAddonsConfig) :
    (updateLabels found networkAddons).2 =
      decide (found.ObjectMeta.Labels ≠ networkAddons.ObjectMeta.Labels) := by
  rw [updateLabels_eq]
  split <;> simp_all

/-- The migration step as one guarded update of the request. -/
theorem setDeployOvsAnnotation_eq (req : HcoRequest) (found : NetworkAddonsConfig) :
    setDeployOvsAnnotation req found =
      if req.UpgradeMode = true ∧
          GoMap.lookup req.Instance.ObjectMeta.Annotations "deployOVS" = none then
        { req with
          Instance := { req.Instance with ObjectMeta := { req.Instance.ObjectMeta with
            Annotations := some (Finmap.insert "deployOVS"
              (if found.Spec.Ovs ≠ none then "true" else "false")
              (match req.Instance.ObjectMeta.Annotations with
                | none => ∅
                | some m => m)) } }
          Logger := req.Logger ++
            [if found.Spec.Ovs ≠ none then "deployOVS annotation is set to true."
              else "deployOVS annotation is set to false."]
          Dirty := true }
      else req := by
  simp only [ setDeployOvsAnnotation, goMap_index_eq, HcoRequest.logInfo]
  cases hu : req.UpgradeMode
  · simp
  · cases hl : GoMap.lookup req.Instance.ObjectMeta.Annotations "deployOVS" with
    | none =>
      by_cases ho : found.Spec.Ovs = none <;> simp [ho]
    | some v => simp

theorem setDeployOvsAnnotation_flags (req : HcoRequest) (found : NetworkAddonsConfig) :
    ( setDeployOvsAnnotation req found).UpgradeMode = req.UpgradeMode ∧
    ( setDeployOvsAnnotation req found).HCOTriggered = req.HCOTriggered ∧
    ( setDeployOvsAnnotation req found).Ctx = req.Ctx := by
  rw [setDeployOvsAnnotation_eq]
  split <;> simp

/-- The body of `updateCr` when both type assertions succeed. -/
theorem updateCr_cna (req : HcoRequest) (client : Client)
    (found networkAddons : NetworkAddonsConfig) :
    updateCr req client (RuntimeObject.cna found) (RuntimeObject.cna networkAddons) =
      if ((updateLabels (updateSpec ( setDeployOvsAnnotation req found) found networkAddons).2.1
            networkAddons).2 ||
          (updateSpec ( setDeployOvsAnnotation req found) found networkAddons).2.2) = true then
        { req := (updateSpec ( setDeployOvsAnnotation req found) found networkAddons).1
          found := RuntimeObject.cna
            (updateLabels (updateSpec ( setDeployOvsAnnotation req found) found networkAddons).2.1
              networkAddons).1
          required := RuntimeObject.cna networkAddons
          ret := (updateCnaCr (updateSpec ( setDeployOvsAnnotation req found) found networkAddons).1
            client
            (updateLabels (updateSpec ( setDeployOvsAnnotation req found) found networkAddons).2.1
              networkAddons).1).1
          calls := (updateCnaCr
            (updateSpec ( setDeployOvsAnnotation req found) found networkAddons).1 client
            (updateLabels (updateSpec ( setDeployOvsAnnotation req found) found networkAddons).2.1
              networkAddons).1).2 }
      else
        { req := (updateSpec ( setDeployOvsAnnotation req found) found networkAddons).1
          found := RuntimeObject.cna
            (updateLabels (updateSpec ( setDeployOvsAnnotation req found) found networkAddons).2.1
              networkAddons).1
          required := RuntimeObject.cna networkAddons
          ret := (false, false, none)
          calls := [] } := by
  simp only [updateCr]

theorem updateCnaCr_eq (req : HcoRequest) (client : Client) (found : NetworkAddonsConfig) :
    updateCnaCr req client found =
      ((match client.Update req.Ctx found with
        | some e => (false, false, some e)
        | none => (true, !req.HCOTriggered, none)), [(req.Ctx, found)]) := by
  simp only [updateCnaCr]
  split <;> rfl

/-- The live object `updateCr` leaves behind, on both branches. -/
theorem updateCr_cna_found (req : HcoRequest) (client : Client)
    (found networkAddons : NetworkAddonsConfig) :
    (updateCr req client (RuntimeObject.cna found) (RuntimeObject.cna networkAddons)).found =
      RuntimeObject.cna
        (updateLabels (updateSpec ( setDeployOvsAnnotation req found) found networkAddons).2.1
          networkAddons).1 := by
  rw [updateCr_cna]
  split <;> rfl

/-- The request `updateCr` leaves behind, on both branches. -/
theorem updateCr_cna_req (req : HcoRequest) (client : Client)
    (found networkAddons : NetworkAddonsConfig) :
    (updateCr req client (RuntimeObject.cna found) (RuntimeObject.cna networkAddons)).req =
      (updateSpec ( setDeployOvsAnnotation req found) found networkAddons).1 := by
  rw [updateCr_cna]
  split <;> rfl

/-- Whether `updateCr` goes on to the update call. -/
theorem updateCr_cna_changed (req : HcoRequest) (found networkAddons : NetworkAddonsConfig) :
    ((updateLabels (updateSpec ( setDeployOvsAnnotation req found) found networkAddons).2.1
          networkAddons).2 ||
        (updateSpec ( setDeployOvsAnnotation req found) found networkAddons).2.2) =
      decide (found.ObjectMeta.Labels ≠ networkAddons.ObjectMeta.Labels ∨
        (found.Spec ≠ networkAddons.Spec ∧ req.UpgradeMode = false)) := by
  rw [updateLabels_changed, updateSpec_changed, updateSpec_labels,
    (setDeployOvsAnnotation_flags req found).1]
  by_cases h1 : found.ObjectMeta.Labels = networkAddons.ObjectMeta.Labels <;>
    by_cases h2 : found.Spec = networkAddons.Spec <;> cases req.UpgradeMode <;> simp [h1, h2]

/-- The triple and the calls of `updateCr` when the object is unchanged. -/
theorem updateCr_cna_unchanged (req : HcoRequest) (client : Client)
    (found networkAddons : NetworkAddonsConfig)
    (hl : found.ObjectMeta.Labels = networkAddons.ObjectMeta.Labels)
    (hs : found.Spec = networkAddons.Spec ∨ req.UpgradeMode = true) :
    (updateCr req client (RuntimeObject.cna found) (RuntimeObject.cna networkAddons)).ret =
      (false, false, none) ∧
    (updateCr req client (RuntimeObject.cna found) (RuntimeObject.cna networkAddons)).calls =
      [] := by
  rw [updateCr_cna, updateCr_cna_changed]
  have : ¬ (found.ObjectMeta.Labels ≠ networkAddons.ObjectMeta.Labels ∨
      (found.Spec ≠ networkAddons.Spec ∧ req.UpgradeMode = false)) := by
    rcases hs with hs | hs <;> simp [hl, hs]
  simp [this]

/-- The triple and the calls of `updateCr` when the object changed. -/
theorem updateCr_cna_update (req : HcoRequest) (client : Client)
    (found networkAddons : NetworkAddonsConfig)
    (hc : found.ObjectMeta.Labels ≠ networkAddons.ObjectMeta.Labels ∨
      (found.Spec ≠ networkAddons.Spec ∧ req.UpgradeMode = false)) :
    (updateCr req client (RuntimeObject.cna found) (RuntimeObject.cna networkAddons)).ret =
      (match client.Update req.Ctx
          (updateLabels (updateSpec ( setDeployOvsAnnotation req found) found networkAddons).2.1
            networkAddons).1 with
        | some e => (false, false, some e)
        | none => (true, !req.HCOTriggered, none)) ∧
    (updateCr req client (RuntimeObject.cna found) (RuntimeObject.cna networkAddons)).calls =
      [(req.Ctx,
        (updateLabels (updateSpec ( setDeployOvsAnnotation req found) found networkAddons).2.1
          networkAddons).1)] := by
  rw [updateCr_cna, updateCr_cna_changed]
  simp only [hc, decide_True, if_true, updateCnaCr_eq, (updateSpec_req _ found networkAddons).2.1,
    (updateSpec_req _ found networkAddons).2.2.1, (setDeployOvsAnnotation_flags req found).2.1,
    (setDeployOvsAnnotation_flags req found).2.2]
  exact ⟨trivial, trivial⟩

/-- C6: for a request that is not in upgrade mode and any live and desired
NetworkAddonsConfig, after `updateSpec` the live Spec equals the desired
Spec, `updateSpec` answers true exactly when the two specs differed
beforehand, and after `updateCr`, with any client, so whether or not the
update call succeeds, the live Spec equals the desired Spec. -/
theorem updateSpec_converges (req : HcoRequest) (client : Client)
    (found networkAddons : NetworkAddonsConfig) (h : req.UpgradeMode = false) :
    (updateSpec req found networkAddons).2.1.Spec = networkAddons.Spec ∧
    ((updateSpec req found networkAddons).2.2 = true ↔ found.Spec ≠ networkAddons.Spec) ∧
    ∃ live,
      (updateCr req client (RuntimeObject.cna found) (RuntimeObject.cna networkAddons)).found =
        RuntimeObject.cna live ∧
      live.Spec = networkAddons.Spec := by
  refine ⟨?_, ?_, ?_⟩
  · rw [updateSpec_spec]; simp [h]
  · rw [updateSpec_changed]; simp [h]
  · refine ⟨_, updateCr_cna_found req client found networkAddons, ?_⟩
    rw [updateLabels_spec, updateSpec_spec, (setDeployOvsAnnotation_flags req found).1]
    simp [h]

/-- Witness for C6: a normal-mode request, a live object whose spec has
drifted, and a failing update call. -/
theorem updateSpec_converges_witness :
    normalReq.UpgradeMode = false ∧
    (updateSpec normalReq liveCna desiredCna).2.1.Spec = desiredCna.Spec ∧
    (updateSpec normalReq liveCna desiredCna).2.2 = true :=
  ⟨rfl, (updateSpec_converges normalReq failingClient liveCna desiredCna rfl).1,
    (updateSpec_converges normalReq failingClient liveCna desiredCna rfl).2.1.mpr (by decide)⟩

/-- C7: for a request in upgrade mode and any live and desired
NetworkAddonsConfig, `updateSpec` leaves the live object as it is and answers
false, also on the request `updateCr` passes to it; after `updateCr` the live
Spec is what it was before the call and the live labels are the desired
labels, and when the labels differed the corrected object is sent in one
update call. -/
theorem updateCr_upgrade_keeps_spec (req : HcoRequest) (client : Client)
    (found networkAddons : NetworkAddonsConfig) (h : req.UpgradeMode = true) :
    updateSpec req found networkAddons = (req, found, false) ∧
    (updateSpec ( setDeployOvsAnnotation req found) found networkAddons).2.2 = false ∧
    ∃ live,
      (updateCr req client (RuntimeObject.cna found) (RuntimeObject.cna networkAddons)).found =
        RuntimeObject.cna live ∧
      live.Spec = found.Spec ∧
      live.ObjectMeta.Labels = networkAddons.ObjectMeta.Labels ∧
      (found.ObjectMeta.Labels ≠ networkAddons.ObjectMeta.Labels →
        (updateCr req client (RuntimeObject.cna found)
          (RuntimeObject.cna networkAddons)).calls = [(req.Ctx, live)]) := by
  refine ⟨?_, ?_, ?_⟩
  · rw [updateSpec_eq]; simp [h]
  · rw [updateSpec_changed, (setDeployOvsAnnotation_flags req found).1]; simp [h]
  · refine ⟨_, updateCr_cna_found req client found networkAddons, ?_, ?_, ?_⟩
    · rw [updateLabels_spec, updateSpec_spec, (setDeployOvsAnnotation_flags req found).1]
      simp [h]
    · rw [updateLabels_labels]
    · intro hl
      exact (updateCr_cna_update req client found networkAddons (Or.inl hl)).2

/-- Witness for C7: an upgrade-mode request, a live object whose spec and
labels both differ from the desired ones. -/
theorem updateCr_upgrade_keeps_spec_witness :
    upgradeReq.UpgradeMode = true ∧
    liveCna.Spec ≠ desiredCna.Spec ∧
    liveCna.ObjectMeta.Labels ≠ desiredCna.ObjectMeta.Labels ∧
    updateSpec upgradeReq liveCna desiredCna = (upgradeReq, liveCna, false) ∧
    (updateCr upgradeReq okClient (RuntimeObject.cna liveCna)
        (RuntimeObject.cna desiredCna)).found =
      RuntimeObject.cna
        { liveCna with ObjectMeta :=
            { liveCna.ObjectMeta with Labels := desiredCna.ObjectMeta.Labels } } :=
  ⟨rfl, by decide, by decide,
    (updateCr_upgrade_keeps_spec upgradeReq okClient liveCna desiredCna rfl).1, by decide⟩

/-- C8: in either request mode and for any live and desired
NetworkAddonsConfig, after `updateLabels` the live label map is the desired
label map, and `updateLabels` answers true exactly when the two maps differed
beforehand. When the specs are equal and the labels differ, as for live
`{a:1}` against desired `{a:1,b:2}`, `updateCr` changes the labels only, makes
one update call, and when that call succeeds returns wasUpdated = true. -/
theorem updateLabels_converges (req : HcoRequest) (client : Client)
    (found networkAddons : NetworkAddonsConfig) :
    (updateLabels found networkAddons).1.ObjectMeta.Labels = networkAddons.ObjectMeta.Labels ∧
    ((updateLabels found networkAddons).2 = true ↔
      found.ObjectMeta.Labels ≠ networkAddons.ObjectMeta.Labels) ∧
    (found.Spec = networkAddons.Spec →
      found.ObjectMeta.Labels ≠ networkAddons.ObjectMeta.Labels →
      (updateCr req client (RuntimeObject.cna found) (RuntimeObject.cna networkAddons)).found =
        RuntimeObject.cna
          { found with ObjectMeta :=
              { found.ObjectMeta with Labels := networkAddons.ObjectMeta.Labels } } ∧
      (updateCr req client (RuntimeObject.cna found) (RuntimeObject.cna networkAddons)).calls =
        [(req.Ctx, { found with ObjectMeta :=
              { found.ObjectMeta with Labels := networkAddons.ObjectMeta.Labels } })] ∧
      (client.Update req.Ctx { found with ObjectMeta :=
              { found.ObjectMeta with Labels := networkAddons.ObjectMeta.Labels } } = none →
        (updateCr req client (RuntimeObject.cna found)
          (RuntimeObject.cna networkAddons)).ret = (true, !req.HCOTriggered, none))) := by
  refine ⟨updateLabels_labels found networkAddons, ?_, ?_⟩
  · rw [updateLabels_changed]; simp
  · intro hs hl
    have hlive : (updateLabels
        (updateSpec ( setDeployOvsAnnotation req found) found networkAddons).2.1
          networkAddons).1 =
        { found with ObjectMeta :=
            { found.ObjectMeta with Labels := networkAddons.ObjectMeta.Labels } } := by
      rw [updateSpec_eq, updateLabels_eq]
      simp [hs, hl]
    have hu := updateCr_cna_update req client found networkAddons (Or.inl hl)
    rw [hlive] at hu
    refine ⟨?_, hu.2, ?_⟩
    · rw [updateCr_cna_found, hlive]
    · intro hok
      rw [hu.1, hok]

/-- Witness for C8: live labels `{a:1}`, desired labels `{a:1,b:2}`, equal
specs, and an update call that succeeds. -/
theorem updateLabels_converges_witness :
    liveCnaSameSpec.Spec = desiredCna.Spec ∧
    liveCnaSameSpec.ObjectMeta.Labels = some (Finmap.singleton "a" "1") ∧
    desiredCna.ObjectMeta.Labels = some ((Finmap.singleton "a" "1").insert "b" "2") ∧
    (updateCr normalReq okClient (RuntimeObject.cna liveCnaSameSpec)
        (RuntimeObject.cna desiredCna)).ret = (true, true, none) ∧
    (updateCr normalReq okClient (RuntimeObject.cna liveCnaSameSpec)
        (RuntimeObject.cna desiredCna)).found = RuntimeObject.cna desiredCna :=
  ⟨rfl, rfl, rfl,
    ((updateLabels_converges normalReq okClient liveCnaSameSpec desiredCna).2.2 rfl
      (by decide)).2.2 rfl,
    ((updateLabels_converges normalReq okClient liveCnaSameSpec desiredCna).2.2 rfl
      (by decide)).1⟩

/-- A failed type assertion makes `updateCr` return an error. -/
theorem updateCr_not_cna (req : HcoRequest) (client : Client) (live desired : RuntimeObject)
    (h : (∀ o, live ≠ RuntimeObject.cna o) ∨ (∀ o, desired ≠ RuntimeObject.cna o)) :
    updateCr req client live desired =
      { req := req, found := live, required := desired,
        ret := (false, false, some "can't convert to CNA"), calls := [] } := by
  cases live with
  | cna o =>
    cases desired with
    | cna o' => rcases h with h | h <;> exact absurd rfl (h _)
    | other k => rfl
  | other k => cases desired <;> rfl

/-- C9: idempotence of `updateCr`. If a first call returns without error,
a second call on the request and live object the first call left behind,
with the same desired object and any client, returns (false, false, nil),
so wasUpdated = false, and makes no update call. -/
theorem updateCr_idempotent (req : HcoRequest) (client client2 : Client)
    (live desired : RuntimeObject)
    (h : (updateCr req client live desired).ret.2.2 = none) :
    (updateCr (updateCr req client live desired).req client2
        (updateCr req client live desired).found desired).ret = (false, false, none) ∧
    (updateCr (updateCr req client live desired).req client2
        (updateCr req client live desired).found desired).calls = [] := by
  cases live with
  | other k =>
    rw [updateCr_not_cna req client _ desired (Or.inl (fun o => by simp))] at h
    simp at h
  | cna found =>
    cases desired with
    | other k =>
      rw [updateCr_not_cna req client _ _ (Or.inr (fun o => by simp))] at h
      simp at h
    | cna networkAddons =>
      rw [updateCr_cna_found, updateCr_cna_req]
      apply updateCr_cna_unchanged
      · rw [updateLabels_labels]
      · rw [updateLabels_spec, updateSpec_spec, (updateSpec_req _ found networkAddons).1,
          (setDeployOvsAnnotation_flags req found).1]
        cases req.UpgradeMode <;> simp

/-- Witness for C9: a normal-mode request, a live object that differs from the
desired one in spec and labels, and a first update call that succeeds. -/
theorem updateCr_idempotent_witness :
    (updateCr normalReq okClient (RuntimeObject.cna liveCna)
        (RuntimeObject.cna desiredCna)).ret = (true, true, none) ∧
    (updateCr
        (updateCr normalReq okClient (RuntimeObject.cna liveCna)
          (RuntimeObject.cna desiredCna)).req failingClient
        (updateCr normalReq okClient (RuntimeObject.cna liveCna)
          (RuntimeObject.cna desiredCna)).found (RuntimeObject.cna desiredCna)).ret =
      (false, false, none) :=
  ⟨by decide,
    (updateCr_idempotent normalReq okClient failingClient (RuntimeObject.cna liveCna)
      (RuntimeObject.cna desiredCna) (by decide)).1⟩

/-- Counterexample to C10 as stated: the request does not come from the
orchestrator (HCOTriggered is false), the live object already equals the
desired one, and `updateCr` returns (false, false, nil): the second component
is false. -/
theorem updateCr_external_actor_counterexample :
    normalReq.HCOTriggered = false ∧
    (updateCr normalReq okClient (RuntimeObject.cna desiredCna)
        (RuntimeObject.cna desiredCna)).ret = (false, false, none) := by
  decide

/-- C10, amended: the second component of the triple `updateCr` returns is
true exactly when the first one is (the object changed and the update call
succeeded) and req.HCOTriggered is false. On every path that does not update,
no change, a failed type assertion or a failed update call, it is false. -/
theorem updateCr_external_actor (req : HcoRequest) (client : Client)
    (live desired : RuntimeObject) :
    (updateCr req client live desired).ret.2.1 =
      ((updateCr req client live desired).ret.1 && !req.HCOTriggered) ∧
    ((updateCr req client live desired).ret.1 = false →
      (updateCr req client live desired).ret.2.1 = false) ∧
    ((updateCr req client live desired).ret.1 = true →
      (updateCr req client live desired).ret.2.2 = none ∧
      ((updateCr req client live desired).ret.2.1 = true ↔ req.HCOTriggered = false)) := by
  have key : (updateCr req client live desired).ret = (false, false, none) ∨
      (updateCr req client live desired).ret = (true, !req.HCOTriggered, none) ∨
      ∃ e, (updateCr req client live desired).ret = (false, false, some e) := by
    cases live with
    | other k =>
      rw [updateCr_not_cna req client _ desired (Or.inl (fun o => by simp))]
      exact Or.inr (Or.inr ⟨_, rfl⟩)
    | cna found =>
      cases desired with
      | other k =>
        rw [updateCr_not_cna req client _ _ (Or.inr (fun o => by simp))]
        exact Or.inr (Or.inr ⟨_, rfl⟩)
      | cna networkAddons =>
        by_cases hc : found.ObjectMeta.Labels ≠ networkAddons.ObjectMeta.Labels ∨
            (found.Spec ≠ networkAddons.Spec ∧ req.UpgradeMode = false)
        · rw [(updateCr_cna_update req client found networkAddons hc).1]
          cases client.Update req.Ctx _ with
          | none => exact Or.inr (Or.inl rfl)
          | some e => exact Or.inr (Or.inr ⟨e, rfl⟩)
        · refine Or.inl (updateCr_cna_unchanged req client found networkAddons ?_ ?_).1
          · by_contra hl; exact hc (Or.inl hl)
          · by_contra hs
            apply hc
            right
            constructor
            · intro h; exact hs (Or.inl h)
            · cases hu : req.UpgradeMode
              · rfl
              · exact absurd (Or.inr hu) hs
  rcases key with h | h | ⟨e, h⟩ <;> rw [h] <;> simp

/-- Witness for C10, amended: an external request whose update succeeds gets
true as second component. -/
theorem updateCr_external_actor_witness :
    (updateCr normalReq okClient (RuntimeObject.cna liveCna)
        (RuntimeObject.cna desiredCna)).ret.1 = true ∧
    (updateCr normalReq okClient (RuntimeObject.cna liveCna)
        (RuntimeObject.cna desiredCna)).ret.2.2 = none ∧
    (updateCr normalReq okClient (RuntimeObject.cna liveCna)
        (RuntimeObject.cna desiredCna)).ret.2.1 = true :=
  have h1 : (updateCr normalReq okClient (RuntimeObject.cna liveCna)
      (RuntimeObject.cna desiredCna)).ret.1 = true := by decide
  ⟨h1,
    ((updateCr_external_actor normalReq okClient (RuntimeObject.cna liveCna)
      (RuntimeObject.cna desiredCna)).2.2 h1).1,
    ((updateCr_external_actor normalReq okClient (RuntimeObject.cna liveCna)
      (RuntimeObject.cna desiredCna)).2.2 h1).2.mpr rfl⟩

/-! ## The compatibility migrator -/

/-- The deployOVS value after the migration step ran on a request in upgrade
mode without the key. -/
theorem setDeployOvsAnnotation_lookup (req : HcoRequest) (found : NetworkAddonsConfig)
    (hu : req.UpgradeMode = true)
    (hk : GoMap.lookup req.Instance.ObjectMeta.Annotations "deployOVS" = none) (k : String) :
    GoMap.lookup ( setDeployOvsAnnotation req found).Instance.ObjectMeta.Annotations k =
      if k = "deployOVS" then some (if found.Spec.Ovs ≠ none then "true" else "false")
      else GoMap.lookup req.Instance.ObjectMeta.Annotations k := by
  rw [setDeployOvsAnnotation_eq, if_pos ⟨hu, hk⟩]
  simp only [GoMap.lookup]
  by_cases hkk : k = "deployOVS"
  · subst hkk
    simp [Finmap.lookup_insert]
  · rw [Finmap.lookup_insert_of_ne _ hkk, if_neg hkk]
    cases req.Instance.ObjectMeta.Annotations <;> simp [Finmap.lookup_empty]

/-- The migration step does nothing outside upgrade mode or when the key is
there. -/
theorem setDeployOvsAnnotation_skip (req : HcoRequest) (found : NetworkAddonsConfig)
    (h : req.UpgradeMode = false ∨
      GoMap.lookup req.Instance.ObjectMeta.Annotations "deployOVS" ≠ none) :
    setDeployOvsAnnotation req found = req := by
  rw [setDeployOvsAnnotation_eq, if_neg]
  rintro ⟨hu, hk⟩
  rcases h with h | h
  · rw [hu] at h; cases h
  · exact h hk

/-- C11: for a request in upgrade mode whose parent has no deployOVS key (a
nil annotation map or one without the key) and any live object,
`setDeployOvsAnnotation` sets the parent's deployOVS annotation to "true" when
the live Spec.Ovs is present and to "false" when it is absent, keeps the
other annotations, and sets req.Dirty. The value comes from the live object
alone: inside `updateCr` it is the same for every desired object and every
client. -/
theorem setDeployOvsAnnotation_sets (req : HcoRequest) (found : NetworkAddonsConfig)
    (hu : req.UpgradeMode = true)
    (hk : GoMap.lookup req.Instance.ObjectMeta.Annotations "deployOVS" = none) :
    (found.Spec.Ovs ≠ none →
      GoMap.lookup ( setDeployOvsAnnotation req found).Instance.ObjectMeta.Annotations
        "deployOVS" = some "true") ∧
    (found.Spec.Ovs = none →
      GoMap.lookup ( setDeployOvsAnnotation req found).Instance.ObjectMeta.Annotations
        "deployOVS" = some "false") ∧
    ( setDeployOvsAnnotation req found).Dirty = true ∧
    (∀ k, k ≠ "deployOVS" →
      GoMap.lookup ( setDeployOvsAnnotation req found).Instance.ObjectMeta.Annotations k =
        GoMap.lookup req.Instance.ObjectMeta.Annotations k) ∧
    (∀ client networkAddons,
      GoMap.lookup
          (updateCr req client (RuntimeObject.cna found)
            (RuntimeObject.cna networkAddons)).req.Instance.ObjectMeta.Annotations
          "deployOVS" =
        some (if found.Spec.Ovs ≠ none then "true" else "false") ∧
      (updateCr req client (RuntimeObject.cna found)
        (RuntimeObject.cna networkAddons)).req.Dirty = true) := by
  have hl := setDeployOvsAnnotation_lookup req found hu hk
  have hd : ( setDeployOvsAnnotation req found).Dirty = true := by
    rw [setDeployOvsAnnotation_eq, if_pos ⟨hu, hk⟩]
  refine ⟨?_, ?_, hd, ?_, ?_⟩
  · intro ho; rw [hl]; simp [ho]
  · intro ho; rw [hl]; simp [ho]
  · intro k hkk; rw [hl, if_neg hkk]
  · intro client networkAddons
    rw [updateCr_cna_req, (updateSpec_req _ found networkAddons).2.2.2.1,
      (updateSpec_req _ found networkAddons).2.2.2.2, hl]
    exact ⟨by simp, hd⟩

/-- Witness for C11: an upgrade-mode request with a nil annotation map and a
live object that has the Ovs block. -/
theorem setDeployOvsAnnotation_sets_witness :
    upgradeReq.UpgradeMode = true ∧
    GoMap.lookup upgradeReq.Instance.ObjectMeta.Annotations "deployOVS" = none ∧
    liveCna.Spec.Ovs ≠ none ∧
    GoMap.lookup ( setDeployOvsAnnotation upgradeReq liveCna).Instance.ObjectMeta.Annotations
      "deployOVS" = some "true" ∧
    ( setDeployOvsAnnotation upgradeReq liveCna).Dirty = true :=
  ⟨rfl, rfl, by decide,
    ( setDeployOvsAnnotation_sets upgradeReq liveCna rfl rfl).1 (by decide),
    ( setDeployOvsAnnotation_sets upgradeReq liveCna rfl rfl).2.2.1⟩

/-- C12: `setDeployOvsAnnotation` changes the request only in upgrade mode
with the deployOVS key missing. For a request that is not in upgrade mode, or
whose parent has the key with any value, and for any live object, the request
comes back as it was, annotation map and Dirty included. So after a first
application, further applications, on any live objects, change nothing. -/
theorem setDeployOvsAnnotation_only_when_missing (req : HcoRequest)
    (found : NetworkAddonsConfig) :
    ((req.UpgradeMode = false ∨
        GoMap.lookup req.Instance.ObjectMeta.Annotations "deployOVS" ≠ none) →
      setDeployOvsAnnotation req found = req ∧
      ( setDeployOvsAnnotation req found).Instance.ObjectMeta.Annotations =
        req.Instance.ObjectMeta.Annotations ∧
      ( setDeployOvsAnnotation req found).Dirty = req.Dirty) ∧
    (∀ later : List NetworkAddonsConfig,
      later.foldl setDeployOvsAnnotation ( setDeployOvsAnnotation req found) =
        setDeployOvsAnnotation req found) := by
  constructor
  · intro h
    rw [setDeployOvsAnnotation_skip req found h]
    exact ⟨rfl, rfl, rfl⟩
  · intro later
    have hfix : ∀ f, setDeployOvsAnnotation ( setDeployOvsAnnotation req found) f =
        setDeployOvsAnnotation req found := by
      intro f
      apply setDeployOvsAnnotation_skip
      by_cases hu : req.UpgradeMode = true
      · right
        cases hk : GoMap.lookup req.Instance.ObjectMeta.Annotations "deployOVS" with
        | none => rw [setDeployOvsAnnotation_lookup req found hu hk]; simp
        | some v =>
          rw [setDeployOvsAnnotation_skip req found (Or.inr (by rw [hk]; simp)), hk]
          simp
      · left
        rw [(setDeployOvsAnnotation_flags req found).1]
        cases h : req.UpgradeMode
        · rfl
        · exact absurd h hu
    induction later with
    | nil => rfl
    | cons f fs ih => rw [List.foldl_cons, hfix, ih]

/-- Witness for C12: an upgrade-mode request whose parent has deployOVS set
to a value that is neither "true" nor "false". -/
theorem setDeployOvsAnnotation_only_when_missing_witness :
    upgradeReqWithKey.UpgradeMode = true ∧
    GoMap.lookup upgradeReqWithKey.Instance.ObjectMeta.Annotations "deployOVS" =
      some "maybe" ∧
    setDeployOvsAnnotation upgradeReqWithKey liveCna = upgradeReqWithKey :=
  ⟨rfl, rfl,
    (( setDeployOvsAnnotation_only_when_missing upgradeReqWithKey liveCna).1
      (Or.inr (by decide))).1⟩

/-- C13, the code at the diverging input: an upgrade-mode request whose parent
has no deployOVS annotation and a live object without the Ovs block. The
comment on `setDeployOvsAnnotation` says the annotation is set to true; the
function sets it to "false". -/
theorem migration_writes_false_without_ovs :
    upgradeReq.UpgradeMode = true ∧
    GoMap.lookup upgradeReq.Instance.ObjectMeta.Annotations "deployOVS" = none ∧
    liveCnaNoOvs.Spec.Ovs = none ∧
    GoMap.lookup
        ( setDeployOvsAnnotation upgradeReq liveCnaNoOvs).Instance.ObjectMeta.Annotations
        "deployOVS" = some "false" ∧
    GoMap.lookup
        ( setDeployOvsAnnotation upgradeReq liveCnaNoOvs).Instance.ObjectMeta.Annotations
        "deployOVS" ≠ some "true" := by
  decide

/-- The Ovs block of a built object when the overlay is absent or leaves
Spec.Ovs as it finds it. -/
theorem NewNetworkAddons_ovs_preserved (env : Env) (hc : HyperConverged) (opts : List String)
    (cna : NetworkAddonsConfig) (hok : NewNetworkAddons env hc opts = Except.ok cna)
    (hp : GoMap.lookup hc.ObjectMeta.Annotations env.JSONPatchCNAOAnnotationName = none ∨
      ∀ o o', env.jsonPatch
        (GoMap.index hc.ObjectMeta.Annotations env.JSONPatchCNAOAnnotationName).1 o =
          Except.ok o' → o'.Spec.Ovs = o.Spec.Ovs) :
    cna.Spec.Ovs = hcoAnnotation2CnaoSpec hc.ObjectMeta.Annotations := by
  rw [NewNetworkAddons_eq] at hok
  cases hl : GoMap.lookup hc.ObjectMeta.Annotations env.JSONPatchCNAOAnnotationName with
  | none =>
    rw [applyPatchToSpec_no_overlay env hc _ _ hl] at hok
    cases hok
    rfl
  | some patch =>
    rw [applyPatchToSpec_overlay env hc _ _ patch hl] at hok
    rcases hp with hp | hp
    · rw [hl] at hp; cases hp
    · have := hp _ cna (by rw [goMap_index_eq, hl]; exact hok)
      rw [this]

/-- Counterexample to C14 as stated: an upgrade-mode request whose parent has
no deployOVS annotation and an overlay that adds `/spec/ovs`, and a live object
without the Ovs block. After `setDeployOvsAnnotation` the resolver is absent,
as the live block is, but the desired spec built afterwards has the Ovs block:
it adds the block relative to the live object. -/
theorem setDeployOvsAnnotation_overlay_counterexample :
    upgradeReqWithOvsPatch.UpgradeMode = true ∧
    GoMap.lookup upgradeReqWithOvsPatch.Instance.ObjectMeta.Annotations "deployOVS" = none ∧
    liveCnaNoOvs.Spec.Ovs = none ∧
    hcoAnnotation2CnaoSpec
        ( setDeployOvsAnnotation upgradeReqWithOvsPatch
          liveCnaNoOvs).Instance.ObjectMeta.Annotations = none ∧
    builtSpec
        (NewNetworkAddons exampleEnv
          ( setDeployOvsAnnotation upgradeReqWithOvsPatch liveCnaNoOvs).Instance []) =
      some { Multus := some {}, LinuxBridge := some {}, NMState := some {},
             KubeMacPool := some {}, Ovs := some {} } := by
  decide

/-- C14, amended: the migration keeps the live feature state. For a request in
upgrade mode whose parent has no deployOVS annotation and any live object,
after `setDeployOvsAnnotation` the resolver `hcoAnnotation2CnaoSpec`, applied
to the parent's annotations, is present if and only if the live Spec.Ovs is
present; the two blocks are equal. So, when the parent's JSON-patch overlay is
absent or leaves Spec.Ovs as it finds it, every desired object built
afterwards has exactly the live object's Ovs block, neither added nor
removed, and without an overlay annotation the build succeeds. -/
theorem setDeployOvsAnnotation_preserves_ovs (env : Env) (req : HcoRequest)
    (found : NetworkAddonsConfig) (opts : List String)
    (hu : req.UpgradeMode = true)
    (hk : GoMap.lookup req.Instance.ObjectMeta.Annotations "deployOVS" = none) :
    (hcoAnnotation2CnaoSpec ( setDeployOvsAnnotation req found).Instance.ObjectMeta.Annotations
        ≠ none ↔ found.Spec.Ovs ≠ none) ∧
    hcoAnnotation2CnaoSpec ( setDeployOvsAnnotation req found).Instance.ObjectMeta.Annotations =
      found.Spec.Ovs ∧
    ((GoMap.lookup ( setDeployOvsAnnotation req found).Instance.ObjectMeta.Annotations
          env.JSONPatchCNAOAnnotationName = none ∨
        ∀ o o', env.jsonPatch
          (GoMap.index ( setDeployOvsAnnotation req found).Instance.ObjectMeta.Annotations
            env.JSONPatchCNAOAnnotationName).1 o =
            Except.ok o' → o'.Spec.Ovs = o.Spec.Ovs) →
      (GoMap.lookup ( setDeployOvsAnnotation req found).Instance.ObjectMeta.Annotations
          env.JSONPatchCNAOAnnotationName = none →
        ∃ cna, NewNetworkAddons env ( setDeployOvsAnnotation req found).Instance opts =
          Except.ok cna) ∧
      ∀ cna, NewNetworkAddons env ( setDeployOvsAnnotation req found).Instance opts =
          Except.ok cna →
        cna.Spec.Ovs = found.Spec.Ovs ∧
        (cna.Spec.Ovs ≠ none ↔ found.Spec.Ovs ≠ none)) := by
  have heq : hcoAnnotation2CnaoSpec
      ( setDeployOvsAnnotation req found).Instance.ObjectMeta.Annotations = found.Spec.Ovs := by
    rw [hcoAnnotation2CnaoSpec_eq, setDeployOvsAnnotation_lookup req found hu hk]
    cases ho : found.Spec.Ovs with
    | none => simp
    | some o => simp
  refine ⟨by rw [heq], heq, ?_⟩
  intro hp
  constructor
  · intro hl
    rw [NewNetworkAddons_eq, applyPatchToSpec_no_overlay env _ _ _ hl]
    exact ⟨_, rfl⟩
  · intro cna hok
    have h := NewNetworkAddons_ovs_preserved env _ opts cna hok hp
    rw [heq] at h
    exact ⟨h, by rw [h]⟩

/-- Witness for C14, amended: an upgrade-mode request with a nil annotation
map, so without an overlay, and a live object that has the Ovs block. -/
theorem setDeployOvsAnnotation_preserves_ovs_witness :
    upgradeReq.UpgradeMode = true ∧
    GoMap.lookup upgradeReq.Instance.ObjectMeta.Annotations "deployOVS" = none ∧
    hcoAnnotation2CnaoSpec
        ( setDeployOvsAnnotation upgradeReq liveCna).Instance.ObjectMeta.Annotations =
      some {} ∧
    GoMap.lookup ( setDeployOvsAnnotation upgradeReq liveCna).Instance.ObjectMeta.Annotations
      exampleEnv.JSONPatchCNAOAnnotationName = none ∧
    (∀ cna, NewNetworkAddons exampleEnv ( setDeployOvsAnnotation upgradeReq liveCna).Instance [] =
        Except.ok cna → cna.Spec.Ovs = liveCna.Spec.Ovs) :=
  have hl : GoMap.lookup
      ( setDeployOvsAnnotation upgradeReq liveCna).Instance.ObjectMeta.Annotations
      exampleEnv.JSONPatchCNAOAnnotationName = none := by decide
  ⟨rfl, rfl,
    ( setDeployOvsAnnotation_preserves_ovs exampleEnv upgradeReq liveCna [] rfl rfl).2.1,
    hl,
    fun cna hok =>
      ((( setDeployOvsAnnotation_preserves_ovs exampleEnv upgradeReq liveCna [] rfl rfl).2.2
        (Or.inl hl)).2 cna hok).1⟩

/-! ## The update call, failures and the frame -/

/-- The desired object `updateCr` leaves behind, on both branches. -/
theorem updateCr_cna_required (req : HcoRequest) (client : Client)
    (found networkAddons : NetworkAddonsConfig) :
    (updateCr req client (RuntimeObject.cna found) (RuntimeObject.cna networkAddons)).required =
      RuntimeObject.cna networkAddons := by
  rw [updateCr_cna]
  split <;> rfl

/-- What `updateSpec` followed by `updateLabels` leaves alone in the live
object: its Status and all its metadata but the labels. -/
theorem updateLabels_updateSpec_frame (req : HcoRequest)
    (found networkAddons : NetworkAddonsConfig) :
    (updateLabels (updateSpec req found networkAddons).2.1 networkAddons).1.Status =
      found.Status ∧
    { (updateLabels (updateSpec req found networkAddons).2.1 networkAddons).1.ObjectMeta with
        Labels := found.ObjectMeta.Labels } = found.ObjectMeta := by
  have hs : (updateSpec req found networkAddons).2.1.Status = found.Status := by
    rw [updateSpec_eq]; split <;> rfl
  have hm := updateSpec_labels req found networkAddons
  have hl : ∀ f : NetworkAddonsConfig,
      (updateLabels f networkAddons).1.Status = f.Status ∧
      { (updateLabels f networkAddons).1.ObjectMeta with Labels := f.ObjectMeta.Labels } =
        f.ObjectMeta := by
    intro f
    rw [updateLabels_eq]
    split <;> exact ⟨rfl, rfl⟩
  have h := hl (updateSpec req found networkAddons).2.1
  rw [hs, hm] at h
  exact h

/-- The live object when there is nothing to change. -/
theorem updateLabels_updateSpec_unchanged (req : HcoRequest)
    (found networkAddons : NetworkAddonsConfig)
    (hl : found.ObjectMeta.Labels = networkAddons.ObjectMeta.Labels)
    (hs : found.Spec = networkAddons.Spec ∨ req.UpgradeMode = true) :
    (updateLabels (updateSpec req found networkAddons).2.1 networkAddons).1 = found ∧
    (updateSpec req found networkAddons).1 = req := by
  rw [updateSpec_eq, if_neg (by rcases hs with hs | hs <;> simp [hs])]
  rw [updateLabels_eq, if_neg (by simp [hl])]
  exact ⟨rfl, rfl⟩

/-- C15: when `updateCr` decides the object changed (the labels differ, or the
specs differ outside upgrade mode), `Client.Update` is called exactly once,
with the request's context and the live object as `updateCr` left it. If the
call answers with an error e, `updateCr` returns (false, false, e); there is
no second call. If it answers nil, `updateCr` returns
(true, not req.HCOTriggered, nil). -/
theorem updateCr_single_update (req : HcoRequest) (client : Client)
    (found networkAddons : NetworkAddonsConfig)
    (hc : found.ObjectMeta.Labels ≠ networkAddons.ObjectMeta.Labels ∨
      (found.Spec ≠ networkAddons.Spec ∧ req.UpgradeMode = false)) :
    ∃ live,
      (updateCr req client (RuntimeObject.cna found) (RuntimeObject.cna networkAddons)).found =
        RuntimeObject.cna live ∧
      (updateCr req client (RuntimeObject.cna found) (RuntimeObject.cna networkAddons)).calls =
        [(req.Ctx, live)] ∧
      (updateCr req client (RuntimeObject.cna found)
        (RuntimeObject.cna networkAddons)).calls.length = 1 ∧
      (∀ e, client.Update req.Ctx live = some e →
        (updateCr req client (RuntimeObject.cna found) (RuntimeObject.cna networkAddons)).ret =
          (false, false, some e)) ∧
      (client.Update req.Ctx live = none →
        (updateCr req client (RuntimeObject.cna found) (RuntimeObject.cna networkAddons)).ret =
          (true, !req.HCOTriggered, none)) := by
  have hu := updateCr_cna_update req client found networkAddons hc
  refine ⟨_, updateCr_cna_found req client found networkAddons, hu.2, ?_, ?_, ?_⟩
  · rw [hu.2]; rfl
  · intro e he; rw [hu.1, he]
  · intro he; rw [hu.1, he]

/-- Witness for C15: spec and labels differ in normal mode and the update
call fails. -/
theorem updateCr_single_update_witness :
    (liveCna.ObjectMeta.Labels ≠ desiredCna.ObjectMeta.Labels ∨
      (liveCna.Spec ≠ desiredCna.Spec ∧ normalReq.UpgradeMode = false)) ∧
    (updateCr normalReq failingClient (RuntimeObject.cna liveCna)
      (RuntimeObject.cna desiredCna)).calls = [(7, desiredCna)] ∧
    (updateCr normalReq failingClient (RuntimeObject.cna liveCna)
      (RuntimeObject.cna desiredCna)).ret = (false, false, some "conflict") :=
  have hc : liveCna.ObjectMeta.Labels ≠ desiredCna.ObjectMeta.Labels ∨
      (liveCna.Spec ≠ desiredCna.Spec ∧ normalReq.UpgradeMode = false) :=
    Or.inl (by decide)
  ⟨hc, by decide,
    match updateCr_single_update normalReq failingClient liveCna desiredCna hc with
    | ⟨_, _, _, _, hfail, _⟩ => hfail "conflict" rfl⟩

/-- C16: when the live or the desired object is not a NetworkAddonsConfig,
`updateCr` returns (false, false, error) at once: it makes no update call,
the request comes back as it was (no annotation migration, Dirty unchanged,
also in upgrade mode) and so do both objects. Every other error `updateCr`
returns is the error of a failed update call. -/
theorem updateCr_type_assertion (req : HcoRequest) (client : Client)
    (live desired : RuntimeObject) :
    (((∀ o, live ≠ RuntimeObject.cna o) ∨ (∀ o, desired ≠ RuntimeObject.cna o)) →
      (updateCr req client live desired).ret = (false, false, some "can't convert to CNA") ∧
      (updateCr req client live desired).calls = [] ∧
      (updateCr req client live desired).req = req ∧
      (updateCr req client live desired).found = live ∧
      (updateCr req client live desired).required = desired) ∧
    (∀ e, (updateCr req client live desired).ret.2.2 = some e →
      ((∀ o, live ≠ RuntimeObject.cna o) ∨ (∀ o, desired ≠ RuntimeObject.cna o)) ∨
      ∃ ctx obj, (updateCr req client live desired).calls = [(ctx, obj)] ∧
        client.Update ctx obj = some e) := by
  constructor
  · intro h
    rw [updateCr_not_cna req client live desired h]
    exact ⟨rfl, rfl, rfl, rfl, rfl⟩
  · intro e he
    cases live with
    | other k => exact Or.inl (Or.inl (fun o => by simp))
    | cna found =>
      cases desired with
      | other k => exact Or.inl (Or.inr (fun o => by simp))
      | cna networkAddons =>
        right
        by_cases hc : found.ObjectMeta.Labels ≠ networkAddons.ObjectMeta.Labels ∨
            (found.Spec ≠ networkAddons.Spec ∧ req.UpgradeMode = false)
        · have hu := updateCr_cna_update req client found networkAddons hc
          refine ⟨_, _, hu.2, ?_⟩
          rw [hu.1] at he
          cases hcl : client.Update req.Ctx
              (updateLabels
                (updateSpec ( setDeployOvsAnnotation req found) found networkAddons).2.1
                networkAddons).1 with
          | none => rw [hcl] at he; simp at he
          | some e' => rw [hcl] at he; simp at he; rw [he]
        · have hn := (updateCr_cna_unchanged req client found networkAddons
            (by by_contra hl; exact hc (Or.inl hl))
            (by
              by_contra hs
              apply hc
              right
              constructor
              · intro h; exact hs (Or.inl h)
              · cases hu : req.UpgradeMode
                · rfl
                · exact absurd (Or.inr hu) hs)).1
          rw [hn] at he
          simp at he

/-- Witness for C16: the live object is of another kind and the request is in
upgrade mode without the deployOVS key. -/
theorem updateCr_type_assertion_witness :
    (updateCr upgradeReq okClient (RuntimeObject.other "Pod")
      (RuntimeObject.cna desiredCna)).ret = (false, false, some "can't convert to CNA") ∧
    (updateCr upgradeReq okClient (RuntimeObject.other "Pod")
      (RuntimeObject.cna desiredCna)).req = upgradeReq :=
  have h := (updateCr_type_assertion upgradeReq okClient (RuntimeObject.other "Pod")
    (RuntimeObject.cna desiredCna)).1 (Or.inl (fun o => by simp))
  ⟨h.1, h.2.2.1⟩

/-- C17: when the labels are equal and either the specs are equal or the
request is in upgrade mode, `updateCr` makes no update call, returns
(false, false, nil), and leaves the live and the desired object as they
were. -/
theorem updateCr_noop (req : HcoRequest) (client : Client)
    (found networkAddons : NetworkAddonsConfig)
    (hl : found.ObjectMeta.Labels = networkAddons.ObjectMeta.Labels)
    (hs : found.Spec = networkAddons.Spec ∨ req.UpgradeMode = true) :
    (updateCr req client (RuntimeObject.cna found) (RuntimeObject.cna networkAddons)).calls =
      [] ∧
    (updateCr req client (RuntimeObject.cna found) (RuntimeObject.cna networkAddons)).ret =
      (false, false, none) ∧
    (updateCr req client (RuntimeObject.cna found) (RuntimeObject.cna networkAddons)).found =
      RuntimeObject.cna found ∧
    (updateCr req client (RuntimeObject.cna found) (RuntimeObject.cna networkAddons)).required =
      RuntimeObject.cna networkAddons := by
  have hn := updateCr_cna_unchanged req client found networkAddons hl hs
  refine ⟨hn.2, hn.1, ?_, updateCr_cna_required req client found networkAddons⟩
  rw [updateCr_cna_found]
  have hs' : found.Spec = networkAddons.Spec ∨
      ( setDeployOvsAnnotation req found).UpgradeMode = true := by
    rw [(setDeployOvsAnnotation_flags req found).1]; exact hs
  rw [(updateLabels_updateSpec_unchanged _ found networkAddons hl hs').1]

/-- Witness for C17: an upgrade-mode request, equal labels, specs that
differ. -/
theorem updateCr_noop_witness :
    liveCnaSameLabels.ObjectMeta.Labels = desiredCna.ObjectMeta.Labels ∧
    liveCnaSameLabels.Spec ≠ desiredCna.Spec ∧
    upgradeReq.UpgradeMode = true ∧
    (updateCr upgradeReq failingClient (RuntimeObject.cna liveCnaSameLabels)
      (RuntimeObject.cna desiredCna)).calls = [] ∧
    (updateCr upgradeReq failingClient (RuntimeObject.cna liveCnaSameLabels)
      (RuntimeObject.cna desiredCna)).found = RuntimeObject.cna liveCnaSameLabels :=
  ⟨rfl, by decide, rfl,
    (updateCr_noop upgradeReq failingClient liveCnaSameLabels desiredCna rfl (Or.inr rfl)).1,
    (updateCr_noop upgradeReq failingClient liveCnaSameLabels desiredCna rfl
      (Or.inr rfl)).2.2.1⟩

/-- The update call of `updateCnaCrWriteBack`, component by component. -/
theorem updateCnaCrWriteBack_eq (req : HcoRequest) (client : WriteBackClient)
    (found : NetworkAddonsConfig) :
    updateCnaCrWriteBack req client found =
      ((client.Update req.Ctx found).1,
        (match (client.Update req.Ctx found).2 with
          | some e => (false, false, some e)
          | none => (true, !req.HCOTriggered, none)),
        [(req.Ctx, found)]) := by
  unfold updateCnaCrWriteBack
  generalize client.Update req.Ctx found = r
  obtain ⟨after, err⟩ := r
  cases err <;> rfl

/-- The body of `updateCrWriteBack` when both type assertions succeed. -/
theorem updateCrWriteBack_cna (req : HcoRequest) (client : WriteBackClient)
    (found networkAddons : NetworkAddonsConfig) :
    updateCrWriteBack req client (RuntimeObject.cna found) (RuntimeObject.cna networkAddons) =
      if ((updateLabels (updateSpec ( setDeployOvsAnnotation req found) found networkAddons).2.1
            networkAddons).2 ||
          (updateSpec ( setDeployOvsAnnotation req found) found networkAddons).2.2) = true then
        { req := (updateSpec ( setDeployOvsAnnotation req found) found networkAddons).1
          found := RuntimeObject.cna
            (client.Update
              (updateSpec ( setDeployOvsAnnotation req found) found networkAddons).1.Ctx
              (updateLabels
                (updateSpec ( setDeployOvsAnnotation req found) found networkAddons).2.1
                networkAddons).1).1
          required := RuntimeObject.cna networkAddons
          ret :=
            (match (client.Update
                (updateSpec ( setDeployOvsAnnotation req found) found networkAddons).1.Ctx
                (updateLabels
                  (updateSpec ( setDeployOvsAnnotation req found) found networkAddons).2.1
                  networkAddons).1).2 with
              | some e => (false, false, some e)
              | none =>
                (true,
                  !(updateSpec ( setDeployOvsAnnotation req found) found
                    networkAddons).1.HCOTriggered, none))
          calls :=
            [((updateSpec ( setDeployOvsAnnotation req found) found networkAddons).1.Ctx,
              (updateLabels
                (updateSpec ( setDeployOvsAnnotation req found) found networkAddons).2.1
                networkAddons).1)] }
      else
        { req := (updateSpec ( setDeployOvsAnnotation req found) found networkAddons).1
          found := RuntimeObject.cna
            (updateLabels (updateSpec ( setDeployOvsAnnotation req found) found networkAddons).2.1
              networkAddons).1
          required := RuntimeObject.cna networkAddons
          ret := (false, false, none)
          calls := [] } := by
  simp only [updateCrWriteBack, updateCnaCrWriteBack_eq]

/-- A failed type assertion in `updateCrWriteBack`. -/
theorem updateCrWriteBack_not_cna (req : HcoRequest) (client : WriteBackClient)
    (live desired : RuntimeObject)
    (h : (∀ o, live ≠ RuntimeObject.cna o) ∨ (∀ o, desired ≠ RuntimeObject.cna o)) :
    updateCrWriteBack req client live desired =
      { req := req, found := live, required := desired,
        ret := (false, false, some "can't convert to CNA"), calls := [] } := by
  cases live with
  | cna o =>
    cases desired with
    | cna o' => rcases h with h | h <;> exact absurd rfl (h _)
    | other k => rfl
  | other k => cases desired <;> rfl

/-- With a client that leaves the object as passed, `updateCrWriteBack` is
`updateCr`. -/
theorem updateCrWriteBack_toWriteBack (req : HcoRequest) (client : Client)
    (live desired : RuntimeObject) :
    updateCrWriteBack req (Client.toWriteBack client) live desired =
      updateCr req client live desired := by
  cases live with
  | other k => cases desired <;> rfl
  | cna found =>
    cases desired with
    | other k => rfl
    | cna networkAddons =>
      rw [updateCrWriteBack_cna, updateCr_cna]
      simp only [updateCnaCr_eq, Client.toWriteBack]

/-- Counterexample to C18 as stated: the live object has resource version
"41" and generation 3, the update call succeeds and the client writes the
server's reply into the object; after `updateCr` the live object has resource
version "42" and generation 4, fields other than labels and spec. -/
theorem updateCr_write_back_counterexample :
    liveCnaFull.ObjectMeta.ResourceVersion = "41" ∧
    liveCnaFull.ObjectMeta.Generation = 3 ∧
    (updateCrWriteBack normalReq acceptingClient (RuntimeObject.cna liveCnaFull)
      (RuntimeObject.cna desiredCna)).ret = (true, true, none) ∧
    (updateCrWriteBack normalReq acceptingClient (RuntimeObject.cna liveCnaFull)
      (RuntimeObject.cna desiredCna)).found =
      RuntimeObject.cna
        { liveCnaFull with
          Spec := desiredCna.Spec
          ObjectMeta :=
            { liveCnaFull.ObjectMeta with
              Labels := desiredCna.ObjectMeta.Labels
              ResourceVersion := "42"
              Generation := 4 } } := by
  decide

/-- C18, amended: `updateCr` itself writes only the labels and the spec of the
live object. Whatever the request, the client and the two objects, the desired
object comes back as it was. The object passed to `Client.Update` has the
live object's Status and every field of its metadata other than the labels:
name, namespace, annotations, owner references, UID, resource version,
generation and finalizers; so has the live object after the call when no
update call is made, or when the client leaves the object as it was passed.
After an update call the live object is what the client left in it. A live
object of another kind comes back as it was. -/
theorem updateCr_frame (req : HcoRequest) (client : WriteBackClient)
    (live desired : RuntimeObject) :
    (updateCrWriteBack req client live desired).required = desired ∧
    (∀ found, live = RuntimeObject.cna found →
      (∀ call ∈ (updateCrWriteBack req client live desired).calls,
        call.2.Status = found.Status ∧
        { call.2.ObjectMeta with Labels := found.ObjectMeta.Labels } = found.ObjectMeta ∧
        call.2.ObjectMeta.Name = found.ObjectMeta.Name ∧
        call.2.ObjectMeta.Namespace = found.ObjectMeta.Namespace ∧
        call.2.ObjectMeta.Annotations = found.ObjectMeta.Annotations ∧
        call.2.ObjectMeta.OwnerReferences = found.ObjectMeta.OwnerReferences) ∧
      (∀ ctx sent, (updateCrWriteBack req client live desired).calls = [(ctx, sent)] →
        (updateCrWriteBack req client live desired).found =
          RuntimeObject.cna (client.Update ctx sent).1) ∧
      (((updateCrWriteBack req client live desired).calls = [] ∨
          ∃ ctx sent, (updateCrWriteBack req client live desired).calls = [(ctx, sent)] ∧
            (client.Update ctx sent).1 = sent) →
        ∃ after, (updateCrWriteBack req client live desired).found = RuntimeObject.cna after ∧
          after.Status = found.Status ∧
          { after.ObjectMeta with Labels := found.ObjectMeta.Labels } = found.ObjectMeta ∧
          after.ObjectMeta.Name = found.ObjectMeta.Name ∧
          after.ObjectMeta.Namespace = found.ObjectMeta.Namespace ∧
          after.ObjectMeta.Annotations = found.ObjectMeta.Annotations ∧
          after.ObjectMeta.OwnerReferences = found.ObjectMeta.OwnerReferences)) ∧
    (∀ kind, live = RuntimeObject.other kind →
      (updateCrWriteBack req client live desired).found = live) := by
  have hproj : ∀ a b : ObjectMeta, { a with Labels := b.Labels } = b →
      a.Name = b.Name ∧ a.Namespace = b.Namespace ∧ a.Annotations = b.Annotations ∧
      a.OwnerReferences = b.OwnerReferences := by
    intro a b h
    rw [← h]
    exact ⟨rfl, rfl, rfl, rfl⟩
  cases live with
  | other k =>
    rw [updateCrWriteBack_not_cna req client _ desired (Or.inl (fun o => by simp))]
    refine ⟨rfl, ?_, fun _ _ => rfl⟩
    intro f hf
    cases hf
  | cna found =>
    cases desired with
    | other k =>
      rw [updateCrWriteBack_not_cna req client _ _ (Or.inr (fun o => by simp))]
      refine ⟨rfl, ?_, ?_⟩
      swap
      · intro kind hkind; cases hkind
      intro f hf
      cases hf
      refine ⟨?_, ?_, ?_⟩
      · intro call hcall; cases hcall
      · intro ctx sent hcalls; cases hcalls
      · intro _
        exact ⟨found, rfl, rfl, rfl, rfl, rfl, rfl, rfl⟩
    | cna networkAddons =>
      have hfr := updateLabels_updateSpec_frame ( setDeployOvsAnnotation req found) found
        networkAddons
      have hp := hproj _ _ hfr.2
      rw [updateCrWriteBack_cna]
      split
      · refine ⟨rfl, ?_, ?_⟩
        swap
        · intro kind hkind; cases hkind
        intro f hf
        cases hf
        refine ⟨?_, ?_, ?_⟩
        · intro call hcall
          simp only [List.mem_singleton] at hcall
          subst hcall
          exact ⟨hfr.1, hfr.2, hp.1, hp.2.1, hp.2.2.1, hp.2.2.2⟩
        · intro ctx sent hcalls
          simp only [List.cons.injEq, Prod.mk.injEq, and_true] at hcalls
          rw [← hcalls.1, ← hcalls.2]
        · intro hsame
          rcases hsame with hnil | ⟨ctx, sent, hcalls, hback⟩
          · cases hnil
          · simp only [List.cons.injEq, Prod.mk.injEq, and_true] at hcalls
            rw [← hcalls.1, ← hcalls.2] at hback
            refine ⟨_, rfl, ?_⟩
            rw [hback]
            exact ⟨hfr.1, hfr.2, hp.1, hp.2.1, hp.2.2.1, hp.2.2.2⟩
      · refine ⟨rfl, ?_, ?_⟩
        swap
        · intro kind hkind; cases hkind
        intro f hf
        cases hf
        refine ⟨?_, ?_, ?_⟩
        · intro call hcall; cases hcall
        · intro ctx sent hcalls; cases hcalls
        · intro _
          exact ⟨_, rfl, hfr.1, hfr.2, hp.1, hp.2.1, hp.2.2.1, hp.2.2.2⟩

/-- Witness for C18, amended: a live object with annotations, an owner
reference and a status, whose spec and labels are both overwritten, and a
client that writes the server's reply back. -/
theorem updateCr_frame_witness :
    (updateCrWriteBack normalReq acceptingClient (RuntimeObject.cna liveCnaFull)
      (RuntimeObject.cna desiredCna)).calls =
      [(7, { liveCnaFull with
          Spec := desiredCna.Spec
          ObjectMeta := { liveCnaFull.ObjectMeta with Labels := desiredCna.ObjectMeta.Labels } })] ∧
    (updateCrWriteBack normalReq acceptingClient (RuntimeObject.cna liveCnaFull)
      (RuntimeObject.cna desiredCna)).required = RuntimeObject.cna desiredCna ∧
    (∀ call ∈ (updateCrWriteBack normalReq acceptingClient (RuntimeObject.cna liveCnaFull)
        (RuntimeObject.cna desiredCna)).calls,
      call.2.Status = liveCnaFull.Status ∧
      call.2.ObjectMeta.Annotations = liveCnaFull.ObjectMeta.Annotations) :=
  ⟨by decide,
    (updateCr_frame normalReq acceptingClient (RuntimeObject.cna liveCnaFull)
      (RuntimeObject.cna desiredCna)).1,
    fun call hcall =>
      ⟨(((updateCr_frame normalReq acceptingClient (RuntimeObject.cna liveCnaFull)
        (RuntimeObject.cna desiredCna)).2.1 liveCnaFull rfl).1 call hcall).1,
       (((updateCr_frame normalReq acceptingClient (RuntimeObject.cna liveCnaFull)
        (RuntimeObject.cna desiredCna)).2.1 liveCnaFull rfl).1 call hcall).2.2.2.2.1⟩⟩

/-- C20: `updateCr` does not roll back when the update call fails. If
`updateCr` on two NetworkAddonsConfig objects returns an error e, the update
call was made and answered e, and the live object it leaves in memory carries
the desired labels and, outside upgrade mode, the desired spec; the request
carries the annotation migration (the parent as `setDeployOvsAnnotation` left
it, with its Dirty flag). A second `updateCr` on that request, that live
object and the same desired object, with any client, makes no update call
and returns (false, false, nil). -/
theorem updateCr_no_rollback (req : HcoRequest) (client client2 : Client)
    (found networkAddons : NetworkAddonsConfig) (e : String)
    (hf : (updateCr req client (RuntimeObject.cna found)
      (RuntimeObject.cna networkAddons)).ret.2.2 = some e) :
    (∃ live,
      (updateCr req client (RuntimeObject.cna found) (RuntimeObject.cna networkAddons)).found =
        RuntimeObject.cna live ∧
      (updateCr req client (RuntimeObject.cna found) (RuntimeObject.cna networkAddons)).calls =
        [(req.Ctx, live)] ∧
      client.Update req.Ctx live = some e ∧
      live.ObjectMeta.Labels = networkAddons.ObjectMeta.Labels ∧
      (req.UpgradeMode = false → live.Spec = networkAddons.Spec)) ∧
    (updateCr req client (RuntimeObject.cna found)
        (RuntimeObject.cna networkAddons)).req.Instance =
      ( setDeployOvsAnnotation req found).Instance ∧
    (updateCr req client (RuntimeObject.cna found) (RuntimeObject.cna networkAddons)).req.Dirty =
      ( setDeployOvsAnnotation req found).Dirty ∧
    (req.UpgradeMode = true →
      GoMap.lookup req.Instance.ObjectMeta.Annotations "deployOVS" = none →
      (updateCr req client (RuntimeObject.cna found)
        (RuntimeObject.cna networkAddons)).req.Dirty = true ∧
      GoMap.lookup
          (updateCr req client (RuntimeObject.cna found)
            (RuntimeObject.cna networkAddons)).req.Instance.ObjectMeta.Annotations
          "deployOVS" =
        some (if found.Spec.Ovs ≠ none then "true" else "false")) ∧
    (updateCr
        (updateCr req client (RuntimeObject.cna found) (RuntimeObject.cna networkAddons)).req
        client2
        (updateCr req client (RuntimeObject.cna found) (RuntimeObject.cna networkAddons)).found
        (RuntimeObject.cna networkAddons)).calls = [] ∧
    (updateCr
        (updateCr req client (RuntimeObject.cna found) (RuntimeObject.cna networkAddons)).req
        client2
        (updateCr req client (RuntimeObject.cna found) (RuntimeObject.cna networkAddons)).found
        (RuntimeObject.cna networkAddons)).ret = (false, false, none) := by
  have hc : found.ObjectMeta.Labels ≠ networkAddons.ObjectMeta.Labels ∨
      (found.Spec ≠ networkAddons.Spec ∧ req.UpgradeMode = false) := by
    by_contra hc
    have hn := (updateCr_cna_unchanged req client found networkAddons
      (by by_contra hl; exact hc (Or.inl hl))
      (by
        by_contra hs
        apply hc
        right
        constructor
        · intro h; exact hs (Or.inl h)
        · cases hu : req.UpgradeMode
          · rfl
          · exact absurd (Or.inr hu) hs)).1
    rw [hn] at hf
    simp at hf
  have hu := updateCr_cna_update req client found networkAddons hc
  have hreq := updateSpec_req ( setDeployOvsAnnotation req found) found networkAddons
  have hflags := setDeployOvsAnnotation_flags req found
  have hsecond := updateCr_cna_unchanged
    (updateSpec ( setDeployOvsAnnotation req found) found networkAddons).1 client2
    (updateLabels (updateSpec ( setDeployOvsAnnotation req found) found networkAddons).2.1
      networkAddons).1 networkAddons
    (updateLabels_labels _ _)
    (by
      rw [updateLabels_spec, updateSpec_spec, hreq.1, hflags.1]
      cases req.UpgradeMode <;> simp)
  refine ⟨⟨_, updateCr_cna_found req client found networkAddons, hu.2, ?_,
    updateLabels_labels _ _, ?_⟩, ?_, ?_, ?_, ?_, ?_⟩
  · rw [hu.1] at hf
    cases hcl : client.Update req.Ctx
        (updateLabels
          (updateSpec ( setDeployOvsAnnotation req found) found networkAddons).2.1
          networkAddons).1 with
    | none => rw [hcl] at hf; simp at hf
    | some e' => rw [hcl] at hf; simp at hf; rw [hf]
  · intro hmode
    rw [updateLabels_spec, updateSpec_spec, hflags.1]
    simp [hmode]
  · rw [updateCr_cna_req, hreq.2.2.2.1]
  · rw [updateCr_cna_req, hreq.2.2.2.2]
  · intro hmode hk
    rw [updateCr_cna_req, hreq.2.2.2.1, hreq.2.2.2.2,
      setDeployOvsAnnotation_lookup req found hmode hk]
    refine ⟨?_, by simp⟩
    rw [setDeployOvsAnnotation_eq, if_pos ⟨hmode, hk⟩]
  · rw [updateCr_cna_found, updateCr_cna_req]; exact hsecond.2
  · rw [updateCr_cna_found, updateCr_cna_req]; exact hsecond.1

/-- Witness for C20: an upgrade-mode request without the deployOVS key, a
live object with other labels and the Ovs block, and a failing update call. -/
theorem updateCr_no_rollback_witness :
    (updateCr upgradeReq failingClient (RuntimeObject.cna liveCna)
      (RuntimeObject.cna desiredCna)).ret = (false, false, some "conflict") ∧
    (updateCr upgradeReq failingClient (RuntimeObject.cna liveCna)
      (RuntimeObject.cna desiredCna)).req.Dirty = true ∧
    (updateCr
        (updateCr upgradeReq failingClient (RuntimeObject.cna liveCna)
          (RuntimeObject.cna desiredCna)).req
        okClient
        (updateCr upgradeReq failingClient (RuntimeObject.cna liveCna)
          (RuntimeObject.cna desiredCna)).found
        (RuntimeObject.cna desiredCna)).ret = (false, false, none) :=
  have hf : (updateCr upgradeReq failingClient (RuntimeObject.cna liveCna)
      (RuntimeObject.cna desiredCna)).ret.2.2 = some "conflict" := by decide
  ⟨by decide,
    ((updateCr_no_rollback upgradeReq failingClient okClient liveCna desiredCna "conflict"
      hf).2.2.2.1 rfl rfl).1,
    (updateCr_no_rollback upgradeReq failingClient okClient liveCna desiredCna "conflict"
      hf).2.2.2.2.2⟩

/-! ## The desired-object cache -/

/-- The cache after one operation. -/
theorem hookOp_step_cache (env : Env) (h : cnaHooks) (op : HookOp) :
    (HookOp.step env h op).cache =
      match op with
      | HookOp.reset => none
      | HookOp.getFullCr hc => h.cache.or (firstBuilt env [hc]) := by
  cases op with
  | reset => rfl
  | getFullCr hc =>
    simp only [HookOp.step, cnaHooks.getFullCr, firstBuilt, List.findSome?_cons,
      List.findSome?_nil]
    cases hcache : h.cache with
    | some c => simp [hcache]
    | none =>
      cases hb : NewNetworkAddons env hc [] with
      | error err => simp [hcache]
      | ok cna => simp

/-- The cache after a run from the empty cache is the object built for the
first parent, since the last reset, for which the build succeeds. -/
theorem runHooks_cache (env : Env) (ops : List HookOp) :
    (runHooks env {} ops).cache = firstBuilt env (sinceLastReset ops) := by
  induction ops using List.reverseRecOn with
  | nil => rfl
  | append_singleton ops op ih =>
    have hrun : runHooks env {} (ops ++ [op]) = HookOp.step env (runHooks env {} ops) op := by
      simp [runHooks, List.foldl_append]
    rw [hrun, hookOp_step_cache, ih]
    cases op with
    | reset => simp [sinceLastReset, List.foldl_append, firstBuilt]
    | getFullCr hc =>
      simp only [sinceLastReset, List.foldl_append, List.foldl_cons, List.foldl_nil, firstBuilt,
        List.findSome?_append]

/-- C19: the cache invariant of `cnaHooks` under `getFullCr` and `reset`.
Starting from the empty cache, after any sequence of the two operations the
cache is the object `NewNetworkAddons` built for the parent of the first
successful `getFullCr` since the last `reset`, and is empty when there was
none. After `reset`, `getFullCr(hc)` returns exactly the result, object or
error, of `NewNetworkAddons(hc)`; a failing build leaves the cache empty and
a successful one fills it with the built object. Once the cache is filled,
`getFullCr` returns the cached object for any parent and any number of
further `getFullCr` calls leave the hooks unchanged. -/
theorem cnaHooks_cache_invariant (env : Env) (h : cnaHooks) (hc : HyperConverged)
    (ops : List HookOp) :
    (runHooks env {} ops).cache = firstBuilt env (sinceLastReset ops) ∧
    ((runHooks env {} ops).cache = none ∨
      ∃ hc0 ∈ sinceLastReset ops, ∃ cna,
        NewNetworkAddons env hc0 [] = Except.ok cna ∧
        (runHooks env {} ops).cache = some cna) ∧
    (cnaHooks.getFullCr env (cnaHooks.reset h) hc).2 = NewNetworkAddons env hc [] ∧
    (∀ err, NewNetworkAddons env hc [] = Except.error err →
      (cnaHooks.getFullCr env (cnaHooks.reset h) hc).1.cache = none) ∧
    (∀ cna, NewNetworkAddons env hc [] = Except.ok cna →
      (cnaHooks.getFullCr env (cnaHooks.reset h) hc).1.cache = some cna) ∧
    (∀ cna, h.cache = some cna →
      (∀ other, cnaHooks.getFullCr env h other = (h, Except.ok cna)) ∧
      (∀ others : List HyperConverged,
        runHooks env h (others.map HookOp.getFullCr) = h)) := by
  refine ⟨runHooks_cache env ops, ?_, ?_, ?_, ?_, ?_⟩
  · rw [runHooks_cache]
    cases hfb : firstBuilt env (sinceLastReset ops) with
    | none => exact Or.inl rfl
    | some cna =>
      right
      obtain ⟨hc0, hmem, hbuilt⟩ := List.exists_of_findSome?_eq_some hfb
      refine ⟨hc0, hmem, cna, ?_, rfl⟩
      cases hb : NewNetworkAddons env hc0 [] with
      | error err => rw [hb] at hbuilt; cases hbuilt
      | ok c => rw [hb] at hbuilt; cases hbuilt; rfl
  · simp only [cnaHooks.getFullCr, cnaHooks.reset]
    cases NewNetworkAddons env hc [] <;> rfl
  · intro err herr
    simp only [cnaHooks.getFullCr, cnaHooks.reset, herr]
  · intro cna hok
    simp only [cnaHooks.getFullCr, cnaHooks.reset, hok]
  · intro cna hcache
    have hget : ∀ other, cnaHooks.getFullCr env h other = (h, Except.ok cna) := by
      intro other
      simp only [cnaHooks.getFullCr, hcache]
    refine ⟨hget, ?_⟩
    intro others
    induction others with
    | nil => rfl
    | cons o os ih =>
      simp only [runHooks, List.map_cons, List.foldl_cons, HookOp.step, hget] at ih ⊢
      exact ih

/-- Witness for C19: in `examplePass` the build for the first parent fails,
the cache then holds the object built for the second parent, and a filled
cache answers for any parent. -/
theorem cnaHooks_cache_invariant_witness :
    NewNetworkAddons exampleEnv parentWithBadPatch [] = Except.error "unsupported patch" ∧
    (runHooks exampleEnv {} examplePass).cache =
      firstBuilt exampleEnv [parentWithBadPatch, parentWithOvsPatch, parentWithPlacementPatch] ∧
    (Option.map (fun cna => cna.Spec.Ovs) (runHooks exampleEnv {} examplePass).cache) =
      some (some {}) ∧
    cnaHooks.getFullCr exampleEnv { cache := some desiredCna } parentWithOvs =
      ({ cache := some desiredCna }, Except.ok desiredCna) :=
  ⟨rfl,
    (cnaHooks_cache_invariant exampleEnv {} parentWithOvs examplePass).1,
    by decide,
    ((cnaHooks_cache_invariant exampleEnv { cache := some desiredCna } parentWithOvs
      examplePass).2.2.2.2.2 desiredCna rfl).1 parentWithOvs⟩

end Operands
